import Mathlib

/-!  Verification of the Pipeline Graph Execution Engine of the cubesystem
repository (apps/api/app/pipeline/{engine,graph_builder,node_handlers,state}.py
and apps/api/app/billing/cost_calculator.py).

Python values flowing through the engine (JSON-ish dicts) are embedded as the
inductive `Val`; Python dicts are association lists whose update follows the
dict-merge semantics of the source.  Python floats are modelled as exact
rationals.  External collaborators (Supabase store, LLM client, MCP registry,
WebSocket manager, credit service) are modelled as behaviour records whose
operations return `Except String` values: `.error` models a raised exception.
The compiled-graph walk itself is LangGraph library code that is not part of
the repository; it is modelled from the specification (see `runGraph`).  -/

namespace MasterOS

/-- JSON-like Python value (dicts are ordered association lists, numbers are
exact rationals). -/
inductive Val where
  | null : Val
  | bool : Bool → Val
  | num : ℚ → Val
  | str : String → Val
  | list : List Val → Val
  | obj : List (String × Val) → Val
deriving Repr

/-- Python truthiness of a `Val` (`if v:`): empty containers, empty strings,
zero, `False` and `None` are falsy. -/
def Val.truthy : Val → Bool
  | .null => false
  | .bool b => b
  | .num q => q ≠ 0
  | .str s => s ≠ ""
  | .list l => !l.isEmpty
  | .obj l => !l.isEmpty

/-- Dict lookup `d.get(k)` on an association list. -/
def lookup (l : List (String × Val)) (k : String) : Option Val :=
  (l.find? (fun p => p.1 = k)).map (fun p => p.2)

/-- Dict-merge update `{**d, k: v}`: an existing key keeps its position and
gets the new value, a fresh key is appended. -/
def upsert (l : List (String × Val)) (k : String) (v : Val) : List (String × Val) :=
  if l.any (fun p => p.1 = k) then
    l.map (fun p => if p.1 = k then (k, v) else p)
  else
    l ++ [(k, v)]

mutual

/-- Python `repr()` of a value, used by `str()` on containers.  String escaping
and float formatting are approximated (no claim inspects these texts). -/
def Val.pyRepr : Val → String
  | .null => "None"
  | .bool true => "True"
  | .bool false => "False"
  | .num q => if q.den = 1 then toString q.num else toString q
  | .str s => "\x27" ++ s ++ "\x27"
  | .list l => "[" ++ pyReprList l ++ "]"
  | .obj l => "\x7b" ++ pyReprObj l ++ "\x7d"

def pyReprList : List Val → String
  | [] => ""
  | [v] => v.pyRepr
  | v :: rest => v.pyRepr ++ ", " ++ pyReprList rest

def pyReprObj : List (String × Val) → String
  | [] => ""
  | [(k, v)] => "\x27" ++ k ++ "\x27: " ++ v.pyRepr
  | (k, v) :: rest => "\x27" ++ k ++ "\x27: " ++ v.pyRepr ++ ", " ++ pyReprObj rest

end

/-- Python `str()` of a value: identity on strings, `repr`-style otherwise. -/
def Val.pyStr : Val → String
  | .str s => s
  | v => v.pyRepr

mutual

/-- `json.dumps(..., ensure_ascii=False)` of a value.  The source passes
`indent=2`; whitespace layout is approximated (compact) since the text only
feeds the LLM collaborator, which is universally quantified. -/
def Val.jsonDump : Val → String
  | .null => "null"
  | .bool true => "true"
  | .bool false => "false"
  | .num q => if q.den = 1 then toString q.num else toString q
  | .str s => "\"" ++ s ++ "\""
  | .list l => "[" ++ jsonDumpList l ++ "]"
  | .obj l => "\x7b" ++ jsonDumpObj l ++ "\x7d"

def jsonDumpList : List Val → String
  | [] => ""
  | [v] => v.jsonDump
  | v :: rest => v.jsonDump ++ ", " ++ jsonDumpList rest

def jsonDumpObj : List (String × Val) → String
  | [] => ""
  | [(k, v)] => "\"" ++ k ++ "\": " ++ v.jsonDump
  | (k, v) :: rest => "\"" ++ k ++ "\": " ++ v.jsonDump ++ ", " ++ jsonDumpObj rest

end

/-- One conversation message (`{"role": ..., "content": ...}`). -/
structure Message where
  role : String
  content : String
deriving Repr, DecidableEq

/-- `PipelineState` (app/pipeline/state.py): the typed state dict threaded
through every node of a compiled graph. -/
structure PipelineState where
  execution_id : String
  pipeline_id : String
  workspace_id : String
  user_id : String
  input_data : List (String × Val)
  current_node_id : String
  results : List (String × Val)
  messages : List Message
  step_costs : List ℚ
  error : Option String
  status : String
deriving Repr

/-- One `pipeline_steps` row as built by `PipelineEngine._insert_step_records`. -/
structure StepRow where
  execution_id : String
  step_name : String
  step_order : ℕ
  status : String
  output_data : Option Val
  credits_used : ℚ
deriving Repr

/-- Observable side-effect calls made by handlers and by the engine
(broadcasts, persistence writes, billing, audit).  An effect records that the
corresponding collaborator call was attempted with the given identifying
arguments; whether the collaborator then failed is irrelevant, all such
failures are caught and logged by the source. -/
inductive Effect where
  | stepStart (nodeId : String)
  | stepComplete (nodeId : String) (preview : String)
  | approvalRequired (nodeId : String)
  | pauseExecution (executionId : String)
  | insertExecutionRow (executionId : String) (status : String)
  | updateExecutionFinal (executionId : String) (status : String) (totalCost : ℚ) (error : Option String)
  | updateExecutionFailed (executionId : String) (error : String)
  | insertStepRows (rows : List StepRow)
  | creditDeduct (workspaceId : String) (amount : ℚ)
  | auditLog (executionId : String) (status : String)
  | executionComplete (executionId : String)
  | executionError (executionId : String)
deriving Repr

/-- Does the effect record the `human_gate` DB write that sets the stored
execution status to "paused"? -/
def Effect.isPause : Effect → Bool
  | .pauseExecution _ => true
  | _ => false

/-- Does the effect record an "approval_required" WebSocket broadcast? -/
def Effect.isApprovalRequired : Effect → Bool
  | .approvalRequired _ => true
  | _ => false

/-! ## Cost calculator (app/billing/cost_calculator.py) -/

/-- Floor of a rational as an integer (kernel-computable form). -/
def ratFloor (q : ℚ) : ℤ := Int.fdiv q.num q.den

/-- Python `round(x, 6)` modelled on exact rationals: scale by 10^6, round
half to even, scale back. -/
def pyRoundInt (q : ℚ) : ℤ :=
  let f := ratFloor q
  if q - f < 1 / 2 then f
  else if (1 : ℚ) / 2 < q - f then f + 1
  else if f % 2 = 0 then f else f + 1

/-- `round(x, 6)` — all monetary values in the source are rounded to 6
decimal places. -/
def round6 (q : ℚ) : ℚ := (pyRoundInt (q * 1000000) : ℚ) / 1000000

/-- `MODEL_PRICING`: USD per 1 million tokens, (input, output). -/
def MODEL_PRICING : String → Option (ℚ × ℚ)
  | "claude-sonnet-4-20250514" => some (3, 15)
  | "claude-opus-4-20250514" => some (15, 75)
  | "claude-haiku-4-5-20251001" => some (4 / 5, 4)
  | "gpt-4o" => some (5 / 2, 10)
  | "gpt-4o-mini" => some (3 / 20, 3 / 5)
  | _ => none

/-- Token counts for a single LLM invocation. -/
structure TokenUsage where
  input_tokens : ℕ
  output_tokens : ℕ
deriving Repr, DecidableEq

/-- `CostCalculator.calculate_llm_cost`: token cost in USD, 0 for unknown
models. -/
def calculate_llm_cost (model : String) (usage : TokenUsage) : ℚ :=
  match MODEL_PRICING model with
  | none => 0
  | some (pin, pout) =>
      round6 ((usage.input_tokens : ℚ) / 1000000 * pin
        + (usage.output_tokens : ℚ) / 1000000 * pout)

/-- `CostCalculator.calculate_total_cost`: per-agent-step cost. -/
def calculate_total_cost (agent_cost_per_run llm_cost : ℚ) : ℚ :=
  round6 (agent_cost_per_run + llm_cost)

/-- `CostCalculator.calculate_pipeline_cost`: 6-decimal-rounded sum of all
step costs. -/
def calculate_pipeline_cost (step_costs : List ℚ) : ℚ :=
  round6 step_costs.sum

/-! ## Label parsing helpers (node_handlers.py) -/

/-- ASCII whitespace stripped by Python `str.strip()`. -/
def isWsChar (c : Char) : Bool :=
  c = ' ' || c = '\t' || c = '\n' || c = '\r' || c = '\x0b' || c = '\x0c'

/-- `part.strip()`. -/
def stripChars (cs : List Char) : List Char :=
  ((cs.dropWhile isWsChar).reverse.dropWhile isWsChar).reverse

/-- Search for the regex pattern of an opening parenthesis, one or more
non-close-paren characters, then a closing parenthesis; return the group. -/
def findParenContent : List Char → Option (List Char)
  | [] => none
  | '(' :: rest =>
      let inside := rest.takeWhile (fun c => c ≠ ')')
      if inside.isEmpty then findParenContent rest
      else if (rest.drop inside.length).head? = some ')' then some inside
      else findParenContent rest
  | _ :: rest => findParenContent rest

/-- Split on any of the separators +, comma, ampersand (the agent-slug
separator class). -/
def splitOnSeps : List Char → List (List Char)
  | [] => [[]]
  | c :: rest =>
      let r := splitOnSeps rest
      if c = '+' || c = ',' || c = '&' then [] :: r
      else
        match r with
        | [] => [[c]]
        | h :: t => (c :: h) :: t

/-- Insert a dash between a lowercase letter and the following uppercase
letter (the PascalCase-to-slug substitution of the source). -/
def insertDashes : List Char → List Char
  | [] => []
  | [c] => [c]
  | a :: b :: rest =>
      if a.isLower && b.isUpper then a :: '-' :: insertDashes (b :: rest)
      else a :: insertDashes (b :: rest)

/-- Helper `_extract_agent_slugs`: extract agent slugs from a node label
parenthetical; each part is stripped, dash-separated at case boundaries and
lowercased; empty results are dropped. -/
def extract_agent_slugs (label : String) : List String :=
  match findParenContent label.toList with
  | none => []
  | some raw =>
      (splitOnSeps raw).filterMap (fun part =>
        let slug := (insertDashes (stripChars part)).map Char.toLower
        if slug.isEmpty then none else some (String.mk slug))

/-- A word character of the regex character class (ASCII approximation). -/
def isWordChar (c : Char) : Bool := c.isAlphanum || c = '_'

/-- Search for an opening parenthesis, one or more word characters, then a
closing parenthesis; return the group. -/
def findWordParen : List Char → Option (List Char)
  | [] => none
  | '(' :: rest =>
      let w := rest.takeWhile isWordChar
      if !w.isEmpty && (rest.drop w.length).head? = some ')' then some w
      else findWordParen rest
  | _ :: rest => findWordParen rest

/-- Helper `_extract_mcp_name`: extract the MCP provider name from a node
label parenthetical, lowercased. -/
def extract_mcp_name (label : String) : Option String :=
  (findWordParen label.toList).map (fun w => String.mk (w.map Char.toLower))

/-! ## Prompt builder (app/llm/prompt_builder.py) -/

/-- `build_messages`: merge system prompt and context block into one system
message, then append the user input as the first user message. -/
def build_messages (system_prompt : String) (user_input : String)
    (context : Option Val) : List Message :=
  let combined_system :=
    match context with
    | some ctx =>
        if ctx.truthy then
          system_prompt ++ "\n\n--- Context ---\n" ++ ctx.jsonDump
        else system_prompt
    | none => system_prompt
  let sysMsgs :=
    if (combined_system.trim ≠ "") then [Message.mk "system" combined_system]
    else []
  sysMsgs ++ [Message.mk "user" user_input]

/-! ## Node handlers (app/pipeline/node_handlers.py)

Handlers have the source signature `(state, node_config, **deps) -> state`;
a handler result of `.error e` models an exception escaping the handler
(caught later by the engine).  Broadcast attempts are recorded as effects
only when the WebSocket manager is present, mirroring the early return of
the source broadcast helper. -/

/-- A row of the `agents` table, as read by `handle_agent_call`. -/
structure AgentRow where
  slug : String
  system_prompt : String
  cost_per_run : ℚ
deriving Repr

/-- `LLMResponse` (app/llm/client.py). -/
structure LLMResponse where
  content : String
  input_tokens : ℕ
  output_tokens : ℕ
  model : String
deriving Repr

/-- A `newsletter_subscribers` row as selected by `handle_newsletter_send`. -/
structure Subscriber where
  email : String
  name : Option String
deriving Repr

/-- Outcome of the regex search for a braced block plus `json.loads` in
`handle_newsletter_send` (Python standard-library behaviour abstracted as an
arbitrary collaborator function; a successful load of a brace-delimited match
is always a dict). -/
inductive JsonBlockOutcome where
  | noMatch
  | decodeError
  | parsed (kvs : List (String × Val))

/-- External dependencies injected into node handlers by the graph builder
(`PipelineDependencies` plus the per-type keyword subsets).  Collaborator
operations returning `.error` model raised exceptions. -/
structure HandlerDeps where
  wsManager : Bool
  supabaseOk : Bool
  agentLookup : String → Except String (Option AgentRow)
  llmInvoke : AgentRow → List Message → Except String LLMResponse
  mcpExecuteTool : String → String → String → List (String × Val) → Except String Val
  requiredAgents : List String
  requiredMcps : List String
  fetchSubscribers : String → Except String (List Subscriber)
  parseJsonBlock : String → JsonBlockOutcome

/-- Broadcast effects are recorded only when the manager is present. -/
def broadcastIf (ws : Bool) (effs : List Effect) : List Effect :=
  if ws then effs else []

/-- Field access on an object value (`d.get(k)` when `d` is a dict). -/
def objGet (v : Val) (k : String) : Option Val :=
  match v with
  | .obj kvs => lookup kvs k
  | _ => none

/-- `handle_validation`: validate that `input_data` is present and non-empty;
for the special `verify_recovery` node, validate that recovery results exist
in previous step outputs. -/
def handle_validation (cfg_id : String) (_cfg_label : Option String)
    (deps : HandlerDeps) (state : PipelineState) :
    Except String (PipelineState × List Effect) :=
  let node_id := cfg_id
  let effStart := broadcastIf deps.wsManager [.stepStart node_id]
  if node_id = "verify_recovery" then
    let recovery := lookup state.results "execute_recovery"
    if (recovery.map Val.truthy).getD false = false then
      .ok ({ state with
              current_node_id := node_id,
              error := some "Recovery verification failed: no recovery results found",
              status := "failed",
              results := upsert state.results node_id
                (.obj [("valid", .bool false), ("error", .str "No recovery results")]) },
            effStart)
    else
      let validation_result : Val :=
        .obj [("valid", .bool true), ("verified", .bool true),
              ("recovery_output", recovery.getD .null)]
      .ok ({ state with
              current_node_id := node_id,
              results := upsert state.results node_id validation_result },
            effStart ++ broadcastIf deps.wsManager
              [.stepComplete node_id "Validation passed"])
  else if state.input_data.isEmpty then
    .ok ({ state with
            current_node_id := node_id,
            error := some "Validation failed: input_data is empty",
            status := "failed",
            results := upsert state.results node_id (.obj [("valid", .bool false)]) },
          effStart ++ broadcastIf deps.wsManager
            [.stepComplete node_id "Validation failed: empty input"])
  else
    let validation_result : Val :=
      .obj [("valid", .bool true),
            ("fields", .list (state.input_data.map (fun p => .str p.1)))]
    .ok ({ state with
            current_node_id := node_id,
            results := upsert state.results node_id validation_result },
          effStart ++ broadcastIf deps.wsManager
            [.stepComplete node_id "Validation passed"])

/-- The user input string built for each agent: the dumped `input_data`,
followed by dumped previous results when any exist. -/
def agentUserInput (state : PipelineState) : String :=
  let base := (Val.obj state.input_data).jsonDump
  if state.results.isEmpty then base
  else base ++ "\n\n--- Previous Step Results ---\n" ++ (Val.obj state.results).jsonDump

/-- The context dict passed to `build_messages` for each agent. -/
def agentContext (state : PipelineState) (node_id : String) : Val :=
  .obj [("pipeline_input", .obj state.input_data),
        ("previous_results", .obj state.results),
        ("node_id", .str node_id)]

/-- The per-agent success entry stored at `results[node_id][slug]`. -/
def agentSuccessVal (resp : LLMResponse) (step_cost : ℚ) : Val :=
  .obj [("content", .str resp.content), ("model", .str resp.model),
        ("input_tokens", .num resp.input_tokens),
        ("output_tokens", .num resp.output_tokens), ("cost", .num step_cost)]

/-- Result of the per-slug loop of `handle_agent_call`: either the early
"database unavailable" failed state, or the accumulated per-agent results,
total node cost and conversation messages. -/
inductive AgentLoopRes where
  | earlyFail (st : PipelineState)
  | done (agentResults : List (String × Val)) (total : ℚ) (msgs : List Message)

/-- The per-slug loop of `handle_agent_call` (steps 2-5 of its docstring):
agent lookup, message building, LLM invocation, cost accumulation.  A raised
agent lookup escapes the handler; a failed LLM invocation records a per-agent
error entry and continues. -/
def agentCallLoop (deps : HandlerDeps) (state : PipelineState) (node_id : String) :
    List String → List (String × Val) → ℚ → List Message →
    Except String AgentLoopRes
  | [], acc, total, msgs => .ok (.done acc total msgs)
  | slug :: rest, acc, total, msgs =>
    if deps.supabaseOk = false then
      .ok (.earlyFail { state with
        current_node_id := node_id,
        error := some "Database client unavailable",
        status := "failed" })
    else
      match deps.agentLookup slug with
      | .error e => .error e
      | .ok none =>
          agentCallLoop deps state node_id rest
            (upsert acc slug (.obj [("error",
              .str ("Agent \x27" ++ slug ++ "\x27 not found"))]))
            total msgs
      | .ok (some row) =>
          let llmMsgs := build_messages row.system_prompt (agentUserInput state)
            (some (agentContext state node_id))
          match deps.llmInvoke row llmMsgs with
          | .error e =>
              agentCallLoop deps state node_id rest
                (upsert acc slug (.obj [("error", .str e)])) total msgs
          | .ok resp =>
              let llm_cost := calculate_llm_cost resp.model
                ⟨resp.input_tokens, resp.output_tokens⟩
              let step_cost := calculate_total_cost row.cost_per_run llm_cost
              agentCallLoop deps state node_id rest
                (upsert acc slug (agentSuccessVal resp step_cost))
                (total + step_cost)
                (msgs ++ [Message.mk "assistant"
                  ("[" ++ slug ++ "] " ++ resp.content.take 500)])

/-- The step-complete preview text for an agent-call node. -/
def agentPreview (acc : List (String × Val)) : String :=
  String.intercalate ", " (acc.map (fun p =>
    let text :=
      match objGet p.2 "content" with
      | some v => v.pyStr
      | none => (objGet p.2 "error").map Val.pyStr |>.getD ""
    p.1 ++ ": " ++ text.take 80))

/-- Agent resolution of `handle_agent_call` step 1: slugs from the label, or
the pipeline's required agents when the label yields none. -/
def resolvedAgentSlugs (deps : HandlerDeps) (label : String) : List String :=
  if (extract_agent_slugs label).isEmpty && !deps.requiredAgents.isEmpty
  then deps.requiredAgents else extract_agent_slugs label

/-- `handle_agent_call`: invoke one or more LLM agents resolved from the node
label (falling back to the pipeline's required agents); failures of single
agents are recorded per-agent, the node appends one aggregate entry to
`step_costs`. -/
def handle_agent_call (cfg_id : String) (cfg_label : Option String)
    (deps : HandlerDeps) (state : PipelineState) :
    Except String (PipelineState × List Effect) :=
  let node_id := cfg_id
  let label := cfg_label.getD node_id
  let effStart := broadcastIf deps.wsManager [.stepStart node_id]
  let slugs := resolvedAgentSlugs deps label
  if slugs.isEmpty then
    .ok ({ state with
            current_node_id := node_id,
            error := some ("No agents resolved for node \x27" ++ node_id ++ "\x27"),
            status := "failed",
            results := upsert state.results node_id
              (.obj [("error", .str "No agents found")]) },
          effStart)
  else
    match agentCallLoop deps state node_id slugs [] 0 state.messages with
    | .error e => .error e
    | .ok (.earlyFail st) => .ok (st, effStart)
    | .ok (.done acc total msgs) =>
        .ok ({ state with
                current_node_id := node_id,
                results := upsert state.results node_id (.obj acc),
                messages := msgs,
                step_costs := state.step_costs ++ [total] },
              effStart ++ broadcastIf deps.wsManager
                [.stepComplete node_id ((agentPreview acc).take 200)])

/-- MCP provider resolution of `handle_mcp_call`: the label parenthetical,
falling back to the first required MCP of the pipeline definition. -/
def resolvedMcpName (deps : HandlerDeps) (label : String) : Option String :=
  match extract_mcp_name label with
  | some n => some n
  | none => deps.requiredMcps.head?

/-- `handle_mcp_call`: execute exactly one MCP external tool resolved from
the node label (falling back to the first required MCP); any invocation
error fails both the node and the run. -/
def handle_mcp_call (cfg_id : String) (cfg_label : Option String)
    (deps : HandlerDeps) (state : PipelineState) :
    Except String (PipelineState × List Effect) :=
  let node_id := cfg_id
  let label := cfg_label.getD node_id
  let effStart := broadcastIf deps.wsManager [.stepStart node_id]
  match resolvedMcpName deps label with
  | none =>
      .ok ({ state with
              current_node_id := node_id,
              error := some ("No MCP provider resolved for node \x27" ++ node_id ++ "\x27"),
              status := "failed",
              results := upsert state.results node_id
                (.obj [("error", .str "No MCP provider")]) },
            effStart)
  | some name =>
      let params : List (String × Val) :=
        [("input", .obj state.input_data), ("previous_results", .obj state.results)]
      match deps.mcpExecuteTool name state.workspace_id "execute" params with
      | .error e =>
          .ok ({ state with
                  current_node_id := node_id,
                  error := some ("MCP \x27" ++ name ++ "\x27 execution failed: " ++ e),
                  status := "failed",
                  results := upsert state.results node_id
                    (.obj [("error", .str e)]) },
                effStart)
      | .ok mcp_result =>
          .ok ({ state with
                  current_node_id := node_id,
                  results := upsert state.results node_id mcp_result },
                effStart ++ broadcastIf deps.wsManager
                  [.stepComplete node_id (mcp_result.pyStr.take 200)])

/-- Split a list into chunks of 100 (the newsletter batch size). -/
def chunks100 : List Val → List (List Val)
  | [] => []
  | x :: rest => ((x :: rest).take 100) :: chunks100 ((x :: rest).drop 100)
termination_by l => l.length
decreasing_by simp [List.length_drop]; omega

/-- Python `int()` of a value where the source expects a number (numbers
truncate toward zero, booleans coerce to 0/1; anything else raises inside the
per-chunk guard, which the source counts as a failed chunk). -/
def Val.toIntPy : Val → Option ℤ
  | .num q => some (Int.tdiv q.num q.den)
  | .bool b => some (if b then 1 else 0)
  | _ => none

/-- One newsletter send chunk: a Resend `send_batch` call through the MCP
registry; on success collect email ids and the reported sent count (default:
chunk size), on any error count the whole chunk as failed.  Returns
(sent, failed, email ids). -/
def sendChunk (deps : HandlerDeps) (ws : String) (chunk : List Val) :
    ℤ × ℕ × List String :=
  match deps.mcpExecuteTool "resend" ws "send_batch" [("emails", .list chunk)] with
  | .error _ => (0, chunk.length, [])
  | .ok res =>
      let batchData := match objGet res "data" with
        | some (.list l) => l
        | _ => []
      let ids := batchData.filterMap (fun item =>
        match objGet item "id" with
        | some v => if v.truthy then some v.pyStr else none
        | none => none)
      match objGet res "sent_count" with
      | some v =>
          match v.toIntPy with
          | some n => (n, 0, ids)
          | none => (0, chunk.length, ids)
      | none => ((chunk.length : ℤ), 0, ids)

/-- Fold `sendChunk` over all chunks in order, accumulating counters. -/
def sendChunks (deps : HandlerDeps) (ws : String) :
    List (List Val) → ℤ × ℕ × List String
  | [] => (0, 0, [])
  | chunk :: rest =>
      let s := sendChunk deps ws chunk
      let r := sendChunks deps ws rest
      (s.1 + r.1, s.2.1 + r.2.1, s.2.2 ++ r.2.2)

/-- `handle_newsletter_send`: read the generated newsletter from the
`generate_newsletter` step result, parse subject/html/text from the agent
output, fetch active subscribers and send in batches of 100 via Resend;
partial failures are tolerated. -/
def handle_newsletter_send (cfg_id : String) (cfg_label : Option String)
    (deps : HandlerDeps) (state : PipelineState) :
    Except String (PipelineState × List Effect) :=
  let node_id := cfg_id
  let _label := cfg_label.getD node_id
  let effStart := broadcastIf deps.wsManager [.stepStart node_id]
  let workspace_id := state.workspace_id
  let newsletter_result := (lookup state.results "generate_newsletter").getD (.obj [])
  let agent_data : Val :=
    match newsletter_result with
    | .obj kvs => (lookup kvs "newsletter-writer").getD newsletter_result
    | _ => .obj []
  let raw_content : String :=
    match agent_data with
    | .obj kvs => ((lookup kvs "content").getD (.str "")).pyStr
    | _ => ""
  let subject0 : Val := (lookup state.input_data "subject").getD (.str "")
  let parsedTriple : Val × String × String :=
    match deps.parseJsonBlock raw_content with
    | .noMatch => (subject0, "", "")
    | .decodeError => (subject0, "", raw_content.take 10000)
    | .parsed kvs =>
        (.str (((lookup kvs "subject").getD subject0).pyStr),
         ((lookup kvs "html").getD (.str "")).pyStr,
         ((lookup kvs "text").getD (.str "")).pyStr)
  let html_body := parsedTriple.2.1
  let text_body := parsedTriple.2.2
  let subject : Val :=
    if parsedTriple.1.truthy then parsedTriple.1
    else .str (((lookup state.input_data "topic").getD
      (.str "The Master OS Newsletter")).pyStr)
  if html_body = "" && text_body = "" then
    .ok ({ state with
            current_node_id := node_id,
            results := upsert state.results node_id
              (.obj [("skipped", .bool true), ("reason", .str "no_content")]) },
          effStart ++ broadcastIf deps.wsManager
            [.stepComplete node_id "Skipped: no newsletter content"])
  else if deps.supabaseOk = false then
    .ok ({ state with
            current_node_id := node_id,
            error := some "Database client unavailable",
            status := "failed" },
          effStart)
  else
    match deps.fetchSubscribers workspace_id with
    | .error e => .error e
    | .ok subscribers =>
      if subscribers.isEmpty then
        .ok ({ state with
                current_node_id := node_id,
                results := upsert state.results node_id
                  (.obj [("skipped", .bool true), ("reason", .str "no_subscribers")]) },
              effStart ++ broadcastIf deps.wsManager
                [.stepComplete node_id "No subscribers to send to"])
      else
        let emails_payload : List Val := subscribers.map (fun sub =>
          .obj ([("to", .str sub.email), ("subject", subject)]
            ++ (if html_body ≠ "" then [("html", .str html_body)] else [])
            ++ (if text_body ≠ "" then [("text", .str text_body)] else [])))
        let counts := sendChunks deps workspace_id (chunks100 emails_payload)
        match subject with
        | .str subjText =>
            .ok ({ state with
                    current_node_id := node_id,
                    results := upsert state.results node_id
                      (.obj [("sent_count", .num counts.1),
                             ("failed_count", .num counts.2.1),
                             ("email_ids", .list (counts.2.2.map Val.str)),
                             ("subject", subject),
                             ("subscriber_count", .num subscribers.length)]) },
                  effStart ++ broadcastIf deps.wsManager
                    [.stepComplete node_id
                      ("Sent: " ++ toString counts.1 ++ ", Failed: "
                        ++ toString counts.2.1 ++ ", Subject: " ++ subjText.take 60)])
        | _ =>
            -- the preview slices the subject; a non-string subject raises here
            .error "TypeError: subject is not subscriptable"

/-- `handle_human_gate`: broadcast the approval request, persist status
"paused", and return the state with status "awaiting_approval"; the actual
approval is handled by a separate endpoint. -/
def handle_human_gate (cfg_id : String) (cfg_label : Option String)
    (deps : HandlerDeps) (state : PipelineState) :
    Except String (PipelineState × List Effect) :=
  let node_id := cfg_id
  let label := cfg_label.getD node_id
  let effs := broadcastIf deps.wsManager [.stepStart node_id]
    ++ broadcastIf deps.wsManager [.approvalRequired node_id]
    ++ (if deps.supabaseOk then [.pauseExecution state.execution_id] else [])
  .ok ({ state with
          current_node_id := node_id,
          status := "awaiting_approval",
          results := upsert state.results node_id
            (.obj [("status", .str "awaiting_approval"), ("label", .str label)]) },
        effs)

/-- `handle_trigger`: pass-through marker recording the initiating input. -/
def handle_trigger (cfg_id : String) (cfg_label : Option String)
    (deps : HandlerDeps) (state : PipelineState) :
    Except String (PipelineState × List Effect) :=
  let node_id := cfg_id
  let label := cfg_label.getD node_id
  let trigger_data : Val :=
    .obj [("triggered", .bool true), ("trigger_input", .obj state.input_data),
          ("label", .str label)]
  .ok ({ state with
          current_node_id := node_id,
          results := upsert state.results node_id trigger_data },
        broadcastIf deps.wsManager [.stepStart node_id]
          ++ broadcastIf deps.wsManager [.stepComplete node_id "Trigger activated"])

/-- `handle_action`: generic recorder forwarding accumulated context
(each prior result stringified and truncated to 500 characters). -/
def handle_action (cfg_id : String) (cfg_label : Option String)
    (deps : HandlerDeps) (state : PipelineState) :
    Except String (PipelineState × List Effect) :=
  let node_id := cfg_id
  let label := cfg_label.getD node_id
  let action_result : Val :=
    .obj [("executed", .bool true), ("label", .str label),
          ("context", .obj (state.results.map (fun p =>
            (p.1, .str (p.2.pyStr.take 500)))))]
  .ok ({ state with
          current_node_id := node_id,
          results := upsert state.results node_id action_result },
        broadcastIf deps.wsManager [.stepStart node_id]
          ++ broadcastIf deps.wsManager
            [.stepComplete node_id ("Action executed: " ++ label)])

/-- `handle_output`: terminal aggregator; snapshots all results and marks the
pipeline completed. -/
def handle_output (cfg_id : String) (cfg_label : Option String)
    (deps : HandlerDeps) (state : PipelineState) :
    Except String (PipelineState × List Effect) :=
  let node_id := cfg_id
  let label := cfg_label.getD node_id
  let final_output : Val :=
    .obj [("pipeline_id", .str state.pipeline_id),
          ("execution_id", .str state.execution_id),
          ("node_results", .obj state.results),
          ("total_steps", .num state.results.length),
          ("label", .str label)]
  .ok ({ state with
          current_node_id := node_id,
          status := "completed",
          results := upsert state.results node_id final_output },
        broadcastIf deps.wsManager [.stepStart node_id]
          ++ broadcastIf deps.wsManager [.stepComplete node_id "Pipeline completed"])

/-! ## Graph builder (app/pipeline/graph_builder.py) -/

/-- A node of the wire-format graph definition
(`{ nodes: [{id, type, label, config}], ... }`).  The type and label keys are
optional in the source (`node.get("type", "action")`,
`node.get("label", node_id)`). -/
structure NodeDef where
  id : String
  type : Option String
  label : Option String
  config : List (String × Val)
deriving Repr

/-- An edge `{from, to}` of the wire-format graph definition. -/
structure EdgeDef where
  fromId : String
  toId : String
deriving Repr, DecidableEq

/-- The object form of a `graph_definition` JSON value.  A `none` field means
the key is absent (the source defaults `nodes`/`edges` to `[]`);
`otherKeys` records whether the dict carries any further keys, which matters
only for the Python emptiness test `not graph_def`. -/
structure GraphDefObj where
  nodes : Option (List NodeDef)
  edges : Option (List EdgeDef)
  entry_point : Option String
  otherKeys : Bool

/-- `not graph_def` for a dict: true exactly when the dict is empty. -/
def GraphDefObj.isEmptyDict (o : GraphDefObj) : Bool :=
  o.nodes.isNone && o.edges.isNone && o.entry_point.isNone && !o.otherKeys

/-- The raw `graph_definition` value of a pipeline row: absent/falsy,
a truthy non-dict value, or a dict. -/
inductive RawGraphDef where
  | absent
  | nonObject
  | obj (o : GraphDefObj)

/-- A row of the `pipelines` table, as consumed by the engine and builder. -/
structure PipelineRow where
  name : Option String
  graph_definition : RawGraphDef
  required_agents : List String
  required_mcps : List String

/-- The distinct `ValueError` kinds raised by `PipelineGraphBuilder.build`. -/
inductive BuildError where
  | malformedDefinition
  | noNodes
  | noEntryPoint
  | unknownEntryPoint (ep : String)
  | unknownEdgeFrom (n : String)
  | unknownEdgeTo (n : String)
deriving Repr, DecidableEq

/-- The `str(exc)` of each builder `ValueError` (the unknown-entry-point
message omits the trailing node-id set repr of the source). -/
def BuildError.message : BuildError → String
  | .malformedDefinition => "Pipeline graph_definition is missing or not a JSON object"
  | .noNodes => "graph_definition contains no nodes"
  | .noEntryPoint => "graph_definition has no entry_point"
  | .unknownEntryPoint ep => "entry_point \x27" ++ ep ++ "\x27 not found in node IDs"
  | .unknownEdgeFrom n => "Edge \x27from\x27 node \x27" ++ n ++ "\x27 not found in nodes"
  | .unknownEdgeTo n => "Edge \x27to\x27 node \x27" ++ n ++ "\x27 not found in nodes"

/-- The compiled graph: validated nodes, directed edges and entry point.
The source binds each node's handler closure at compile time; behaviourally
equivalently, this model dispatches on the node type at walk time
(see `dispatchHandler`). -/
structure CompiledGraph where
  nodes : List NodeDef
  edges : List EdgeDef
  entry : String

/-- Edge validation in source order: the first edge with an endpoint outside
the node-id set yields its error. -/
def firstBadEdge (ids : List String) : List EdgeDef → Option BuildError
  | [] => none
  | e :: rest =>
      if e.fromId ∉ ids then some (.unknownEdgeFrom e.fromId)
      else if e.toId ∉ ids then some (.unknownEdgeTo e.toId)
      else firstBadEdge ids rest

/-- `PipelineGraphBuilder.build`: parse and validate `graph_definition`,
returning a compiled graph or the distinct error of the first violated
check (malformed definition, no nodes, missing entry point, unknown entry
point, unknown edge endpoint — in that order). -/
def build (row : PipelineRow) : Except BuildError CompiledGraph :=
  match row.graph_definition with
  | .absent => .error .malformedDefinition
  | .nonObject => .error .malformedDefinition
  | .obj o =>
    if o.isEmptyDict then .error .malformedDefinition
    else if (o.nodes.getD []).isEmpty then .error .noNodes
    else
      match o.entry_point with
      | none => .error .noEntryPoint
      | some ep =>
        if ep = "" then .error .noEntryPoint
        else if ep ∉ (o.nodes.getD []).map (fun n => n.id) then
          .error (.unknownEntryPoint ep)
        else
          match firstBadEdge ((o.nodes.getD []).map (fun n => n.id))
              (o.edges.getD []) with
          | some err => .error err
          | none => .ok ⟨o.nodes.getD [], o.edges.getD [], ep⟩

/-- The synthetic terminal marker every node without out-edges is wired to. -/
def ENDMARK : String := "__end__"

/-- Out-edge targets of a node, in edge-registration order. -/
def CompiledGraph.outTargets (g : CompiledGraph) (nodeId : String) : List String :=
  g.edges.filterMap (fun e => if e.fromId = nodeId then some e.toId else none)

/-- Node lookup in the compiled graph. -/
def CompiledGraph.findNode (g : CompiledGraph) (nodeId : String) : Option NodeDef :=
  g.nodes.find? (fun n => n.id = nodeId)

/-- The dispatch of `NODE_TYPE_HANDLERS`: the node's declared type selects
its handler; an unrecognized type logs a warning and falls back to the
generic action handler. -/
def dispatchHandler (node : NodeDef) (deps : HandlerDeps) (state : PipelineState) :
    Except String (PipelineState × List Effect) :=
  match node.type.getD "action" with
  | "validation" => handle_validation node.id node.label deps state
  | "agent_call" => handle_agent_call node.id node.label deps state
  | "mcp_call" => handle_mcp_call node.id node.label deps state
  | "newsletter_send" => handle_newsletter_send node.id node.label deps state
  | "human_gate" => handle_human_gate node.id node.label deps state
  | "trigger" => handle_trigger node.id node.label deps state
  | "action" => handle_action node.id node.label deps state
  | "output" => handle_output node.id node.label deps state
  | _ => handle_action node.id node.label deps state

/-- Modelled from the spec: the compiled-graph walk.  The walk itself is
performed by the LangGraph library (`compiled_graph.ainvoke`), which is not
code of this repository; per the specification it is a hand-rolled walker
that starts at the entry point, runs each node's bound handler, follows the
node's configured out-edge (the synthetic END when it has none) and halts
when a handler reports an unrecoverable error (status "failed") or suspends
the run (status "awaiting_approval"); a recursion limit bounds the walk and
exceeding it raises.  Returns the final state, the ordered list of node ids
whose handlers ran, and the accumulated effects. -/
def runGraph (g : CompiledGraph) (deps : HandlerDeps) :
    ℕ → String → PipelineState →
    Except String (PipelineState × List String × List Effect)
  | 0, _, _ => .error "Recursion limit reached"
  | fuel + 1, nodeId, st =>
    if nodeId = ENDMARK then .ok (st, [], [])
    else
      match g.findNode nodeId with
      | none => .error ("Unknown node \x27" ++ nodeId ++ "\x27")
      | some node =>
        match dispatchHandler node deps st with
        | .error e => .error e
        | .ok (st2, effs) =>
          if st2.status = "failed" || st2.status = "awaiting_approval" then
            .ok (st2, [nodeId], effs)
          else
            match runGraph g deps fuel ((g.outTargets nodeId).headD ENDMARK) st2 with
            | .error e => .error e
            | .ok (fin, vis, effs2) => .ok (fin, nodeId :: vis, effs ++ effs2)

/-! ## Execution coordinator (app/pipeline/engine.py) -/

/-- The external collaborators of one `PipelineEngine.execute` call.
Operations returning `.error` model raised exceptions; operations whose
failures the source catches and merely logs (final update, step insert,
audit, billing, broadcasts) are still listed so that the theorems quantify
over every collaborator behaviour. -/
structure EngineClients where
  wsManager : Bool
  agentLookup : String → Except String (Option AgentRow)
  llmInvoke : AgentRow → List Message → Except String LLMResponse
  mcpExecuteTool : String → String → String → List (String × Val) → Except String Val
  fetchSubscribers : String → Except String (List Subscriber)
  parseJsonBlock : String → JsonBlockOutcome
  fetchPipeline : Except String (Option PipelineRow)
  insertExecutionCall : Except String Unit
  updateFailedCall : Except String Unit
  updateCompletedCall : Except String Unit
  insertStepsCall : Except String Unit
  creditDeductCall : Except String Unit
  insertAuditCall : Except String Unit
  sendCompleteCall : Except String Unit
  sendErrorCall : Except String Unit

/-- The handler dependency bundle the engine builds for one execution
(`PipelineDependencies`): its own clients plus the pipeline row's required
agent and MCP rosters; the engine always passes its (non-null) Supabase
client. -/
def mkDeps (c : EngineClients) (row : PipelineRow) : HandlerDeps where
  wsManager := c.wsManager
  supabaseOk := true
  agentLookup := c.agentLookup
  llmInvoke := c.llmInvoke
  mcpExecuteTool := c.mcpExecuteTool
  requiredAgents := row.required_agents
  requiredMcps := row.required_mcps
  fetchSubscribers := c.fetchSubscribers
  parseJsonBlock := c.parseJsonBlock

/-- The structured result dict returned by `execute`. -/
structure ExecResult where
  execution_id : String
  status : String
  results : List (String × Val)
  total_cost : ℚ
  error : Option String
deriving Repr

/-- `PipelineEngine._insert_step_records` (row construction): one
`pipeline_steps` row per definition node, status derived from the presence
and shape of its `results` entry, cost taken positionally from `step_costs`
(0.0 past its end). -/
def insertStepRecordsRows (executionId : String) (results : List (String × Val))
    (gdef : RawGraphDef) (stepCosts : List ℚ) : List StepRow :=
  let nodes := match gdef with
    | .obj o => o.nodes.getD []
    | _ => []
  nodes.enum.map (fun p =>
    let idx := p.1
    let node := p.2
    let node_result := lookup results node.id
    let step_status :=
      match node_result with
      | none => "skipped"
      | some v =>
          if ((objGet v "error").map Val.truthy).getD false then "failed"
          else "completed"
    { execution_id := executionId
      step_name := node.id
      step_order := idx + 1
      status := step_status
      output_data := node_result
      credits_used := stepCosts.getD idx 0 })

/-- Python truthiness of the execution error (`if error and ...`). -/
def errTruthy : Option String → Bool
  | none => false
  | some e => e ≠ ""

/-- The initial `PipelineState` the engine builds (step 4 of `execute`). -/
def initialState (executionId pipelineId workspaceId userId : String)
    (inputData : List (String × Val)) : PipelineState where
  execution_id := executionId
  pipeline_id := pipelineId
  workspace_id := workspaceId
  user_id := userId
  input_data := inputData
  current_node_id := ""
  results := []
  messages := []
  step_costs := []
  error := none
  status := "running"

/-- The LangGraph default recursion limit bounding one graph walk. -/
def RECURSION_LIMIT : ℕ := 25

/-- `PipelineEngine.execute`: fetch the definition, persist a running
execution record, compile, walk the graph, derive the final status and total
cost, persist results and step rows, bill, audit and broadcast.  A result of
`.error e` models an exception escaping `execute` to its caller; the returned
triple carries the result dict, the effect trace and the ordered list of node
ids whose handlers ran. -/
def execute (c : EngineClients) (executionId pipelineId workspaceId userId : String)
    (inputData : List (String × Val)) :
    Except String (ExecResult × List Effect × List String) :=
  match c.fetchPipeline with
  | .error e => .error e
  | .ok none =>
      .ok ({ execution_id := executionId, status := "failed", results := [],
             total_cost := 0,
             error := some ("Pipeline \x27" ++ pipelineId ++ "\x27 not found or inactive") },
           [], [])
  | .ok (some row) =>
    match c.insertExecutionCall with
    | .error e => .error e
    | .ok _ =>
      let effs0 : List Effect := [.insertExecutionRow executionId "running"]
      match build row with
      | .error err =>
          .ok ({ execution_id := executionId, status := "failed", results := [],
                 total_cost := 0, error := some err.message },
               effs0 ++ [.updateExecutionFailed executionId err.message], [])
      | .ok g =>
        let deps := mkDeps c row
        let st0 := initialState executionId pipelineId workspaceId userId inputData
        match runGraph g deps RECURSION_LIMIT g.entry st0 with
        | .error e =>
            .ok ({ execution_id := executionId, status := "failed", results := [],
                   total_cost := 0, error := some e },
                 effs0 ++ [.updateExecutionFailed executionId e]
                   ++ broadcastIf c.wsManager [.executionError executionId], [])
        | .ok (finalState, visited, heffs) =>
          let error := finalState.error
          let step_costs := finalState.step_costs
          let total_cost := calculate_pipeline_cost step_costs
          let status :=
            if errTruthy error && finalState.status ≠ "awaiting_approval"
            then "failed" else finalState.status
          let rows := insertStepRecordsRows executionId finalState.results
            row.graph_definition step_costs
          let effs := effs0 ++ heffs
            ++ [.updateExecutionFinal executionId status total_cost error]
            ++ (if rows.isEmpty then [] else [.insertStepRows rows])
            ++ (if status = "completed" && decide (0 < total_cost)
                then [.creditDeduct workspaceId total_cost] else [])
            ++ [.auditLog executionId status]
            ++ (if c.wsManager && status = "completed"
                then [.executionComplete executionId] else [])
          .ok ({ execution_id := executionId, status := status,
                 results := finalState.results, total_cost := total_cost,
                 error := error },
               effs, visited)

/-! ## cancel_execution -/

/-- The result dict of `PipelineEngine.cancel_execution`. -/
inductive CancelOutcome where
  | notFound (error : String)
  | conflict (error : String) (executionId : String) (status : String)
  | cancelled (executionId : String)
deriving Repr, DecidableEq

/-- Effects of one `cancel_execution` call. -/
inductive CancelEffect where
  | updateCancelled (executionId : String)
  | broadcastCancelled (executionId : String)
deriving Repr, DecidableEq

/-- `PipelineEngine.cancel_execution`: cancellable only from pending, running
or paused; otherwise a conflict value is returned and the stored record is
not touched.  `stored` is the status of the stored execution row (`none` when
the row does not exist). -/
def cancel_execution (stored : Option String) (wsManager : Bool)
    (executionId : String) : CancelOutcome × List CancelEffect :=
  match stored with
  | none => (.notFound ("Execution \x27" ++ executionId ++ "\x27 not found"), [])
  | some current =>
    if current = "pending" || current = "running" || current = "paused" then
      (.cancelled executionId,
       [.updateCancelled executionId]
         ++ (if wsManager then [.broadcastCancelled executionId] else []))
    else
      (.conflict ("Cannot cancel execution in \x27" ++ current ++ "\x27 state")
        executionId current, [])

/-! ## Helper lemmas -/

theorem lookup_upsert_self (k : String) (v : Val) :
    ∀ l, lookup (upsert l k v) k = some v := by
  have hmap : ∀ t : List (String × Val), t.any (fun p => p.1 = k) = true →
      lookup (t.map (fun p => if p.1 = k then (k, v) else p)) k = some v := by
    intro t
    induction t with
    | nil => simp
    | cons a t ih =>
      intro h
      by_cases hak : a.1 = k
      · simp [lookup, hak]
      · have ht : t.any (fun p => p.1 = k) = true := by
          simpa [List.any_cons, hak] using h
        simpa [lookup, hak] using ih ht
  have happ : ∀ t : List (String × Val), t.any (fun p => p.1 = k) = false →
      lookup (t ++ [(k, v)]) k = some v := by
    intro t
    induction t with
    | nil => simp [lookup]
    | cons a t ih =>
      intro h
      have hak : ¬ a.1 = k := by
        intro hh
        simp [List.any_cons, hh] at h
      have ht : t.any (fun p => p.1 = k) = false := by
        simpa [List.any_cons, hak] using h
      simpa [lookup, hak] using ih ht
  intro l
  by_cases h : l.any (fun p => p.1 = k)
  · simpa [upsert, h] using hmap l h
  · simpa [upsert, h] using happ l (Bool.eq_false_iff.mpr h)

/-! ## Claim theorems -/

/-- Claim C8: cancel_execution called on an execution whose stored status is
"pending", "running", or "paused" transitions the stored status to
"cancelled" and triggers exactly one broadcast (when a WebSocket manager is
configured; with no manager the source skips the broadcast); called on an
execution in any other stored status it returns a conflict value — not an
exception — and performs no write against the stored execution record. -/
theorem cancel_execution_spec (stored : String) (ws : Bool) (eid : String) :
    ((stored = "pending" ∨ stored = "running" ∨ stored = "paused") →
      (cancel_execution (some stored) ws eid).1 = .cancelled eid ∧
      (cancel_execution (some stored) ws eid).2.countP
        (fun e => match e with | .updateCancelled _ => true | _ => false) = 1 ∧
      (ws = true →
        (cancel_execution (some stored) ws eid).2.countP
          (fun e => match e with | .broadcastCancelled _ => true | _ => false) = 1))
    ∧ (¬(stored = "pending" ∨ stored = "running" ∨ stored = "paused") →
      (cancel_execution (some stored) ws eid).1 =
        .conflict ("Cannot cancel execution in \x27" ++ stored ++ "\x27 state")
          eid stored ∧
      (cancel_execution (some stored) ws eid).2 = []) := by
  constructor
  · intro h
    have hc : (stored = "pending" || stored = "running" || stored = "paused") = true := by
      rcases h with h | h | h <;> simp [h]
    refine ⟨?_, ?_, ?_⟩
    · simp [cancel_execution, hc]
    · cases ws <;> simp only [cancel_execution, hc, if_true] <;> rfl
    · intro hws
      subst hws
      simp only [cancel_execution, hc, if_true]
      rfl
  · intro h
    have hc : (stored = "pending" || stored = "running" || stored = "paused") = false := by
      push_neg at h
      simp [h.1, h.2.1, h.2.2]
    constructor
    · simp [cancel_execution, hc]
    · simp [cancel_execution, hc]

/-- Witness for C8 at concrete inputs: cancelling a "running" execution
cancels it; cancelling a "completed" execution yields a conflict with no
write. -/
theorem cancel_execution_spec_witness :
    (cancel_execution (some "running") true "e1").1 = .cancelled "e1" ∧
    (cancel_execution (some "completed") true "e1").2 = [] :=
  ⟨((cancel_execution_spec "running" true "e1").1 (by simp)).1,
   ((cancel_execution_spec "completed" true "e1").2 (by simp)).2⟩

/-- The compile-success condition as the specification and claim state it:
the definition is a non-empty object with at least one node, a present
(truthy) entry point among the node ids, and every edge endpoint among the
node ids. -/
def SpecCompilable (row : PipelineRow) : Prop :=
  match row.graph_definition with
  | .obj o =>
      o.isEmptyDict = false ∧
      o.nodes.getD [] ≠ [] ∧
      (∃ ep, o.entry_point = some ep ∧ ep ≠ "" ∧
        ep ∈ (o.nodes.getD []).map (fun n => n.id)) ∧
      (∀ e ∈ o.edges.getD [],
        e.fromId ∈ (o.nodes.getD []).map (fun n => n.id) ∧
        e.toId ∈ (o.nodes.getD []).map (fun n => n.id))
  | _ => False

theorem firstBadEdge_none_iff (ids : List String) :
    ∀ edges, firstBadEdge ids edges = none ↔
      ∀ e ∈ edges, e.fromId ∈ ids ∧ e.toId ∈ ids := by
  intro edges
  induction edges with
  | nil => simp [firstBadEdge]
  | cons e t ih =>
    by_cases hf : e.fromId ∈ ids
    · by_cases htc : e.toId ∈ ids
      · simp [firstBadEdge, hf, htc, ih]
      · simp [firstBadEdge, hf, htc]
    · simp [firstBadEdge, hf]

theorem firstBadEdge_some_kind (ids : List String) :
    ∀ edges err, firstBadEdge ids edges = some err →
      ∃ n, err = .unknownEdgeFrom n ∨ err = .unknownEdgeTo n := by
  intro edges
  induction edges with
  | nil => intro err h; simp [firstBadEdge] at h
  | cons e t ih =>
    intro err h
    unfold firstBadEdge at h
    by_cases hf : e.fromId ∈ ids
    · rw [if_neg (not_not_intro hf)] at h
      by_cases ht : e.toId ∈ ids
      · rw [if_neg (not_not_intro ht)] at h
        exact ih err h
      · rw [if_pos ht] at h
        injection h with h
        exact ⟨e.toId, Or.inr h.symm⟩
    · rw [if_pos hf] at h
      injection h with h
      exact ⟨e.fromId, Or.inl h.symm⟩

theorem build_absent_eq (row : PipelineRow)
    (hdef : row.graph_definition = .absent) :
    build row = .error .malformedDefinition := by
  unfold build; rw [hdef]

theorem build_nonObject_eq (row : PipelineRow)
    (hdef : row.graph_definition = .nonObject) :
    build row = .error .malformedDefinition := by
  unfold build; rw [hdef]

theorem build_obj_eq (row : PipelineRow) (o : GraphDefObj)
    (hdef : row.graph_definition = .obj o) :
    build row =
      (if o.isEmptyDict then .error .malformedDefinition
       else if (o.nodes.getD []).isEmpty then .error .noNodes
       else
         match o.entry_point with
         | none => .error .noEntryPoint
         | some ep =>
           if ep = "" then .error .noEntryPoint
           else if ep ∉ (o.nodes.getD []).map (fun n => n.id) then
             .error (.unknownEntryPoint ep)
           else
             match firstBadEdge ((o.nodes.getD []).map (fun n => n.id))
                 (o.edges.getD []) with
             | some err => .error err
             | none => .ok ⟨o.nodes.getD [], o.edges.getD [], ep⟩) := by
  unfold build; rw [hdef]

/-- Claim C2: compilation succeeds iff the raw definition is a non-empty
object with at least one node, a present entry point among the node ids and
all edge endpoints among the node ids; each violation yields its distinct
error kind (checked in source order), and on compile failure no handler runs
(`execute` walks no node and returns the failed result). -/
theorem build_spec (row : PipelineRow) :
    ((∃ g, build row = .ok g) ↔ SpecCompilable row)
    ∧ ((match row.graph_definition with
        | .absent => True
        | .nonObject => True
        | .obj o => o.isEmptyDict = true) →
        build row = .error .malformedDefinition)
    ∧ (∀ o, row.graph_definition = .obj o → o.isEmptyDict = false →
        o.nodes.getD [] = [] → build row = .error .noNodes)
    ∧ (∀ o, row.graph_definition = .obj o → o.isEmptyDict = false →
        o.nodes.getD [] ≠ [] →
        (o.entry_point = none ∨ o.entry_point = some "") →
        build row = .error .noEntryPoint)
    ∧ (∀ o ep, row.graph_definition = .obj o → o.isEmptyDict = false →
        o.nodes.getD [] ≠ [] → o.entry_point = some ep → ep ≠ "" →
        ep ∉ (o.nodes.getD []).map (fun n => n.id) →
        build row = .error (.unknownEntryPoint ep))
    ∧ (∀ o ep err, row.graph_definition = .obj o → o.isEmptyDict = false →
        o.nodes.getD [] ≠ [] → o.entry_point = some ep → ep ≠ "" →
        ep ∈ (o.nodes.getD []).map (fun n => n.id) →
        firstBadEdge ((o.nodes.getD []).map (fun n => n.id)) (o.edges.getD []) =
          some err →
        build row = .error err ∧
          ∃ n, err = .unknownEdgeFrom n ∨ err = .unknownEdgeTo n)
    ∧ (∀ (c : EngineClients) eid pid wid uid input err,
        c.fetchPipeline = .ok (some row) → c.insertExecutionCall = .ok () →
        build row = .error err →
        execute c eid pid wid uid input =
          .ok ({ execution_id := eid, status := "failed", results := [],
                 total_cost := 0, error := some err.message },
               [.insertExecutionRow eid "running",
                .updateExecutionFailed eid err.message], [])) := by
  refine ⟨?_, ?_, ?_, ?_, ?_, ?_, ?_⟩
  · constructor
    · rintro ⟨g, hg⟩
      unfold SpecCompilable
      rcases hdef : row.graph_definition with _ | _ | o
      · rw [build_absent_eq row hdef] at hg; cases hg
      · rw [build_nonObject_eq row hdef] at hg; cases hg
      · by_cases he : o.isEmptyDict
        · rw [build_obj_eq row o hdef, if_pos he] at hg; cases hg
        · by_cases hn : (o.nodes.getD []).isEmpty
          · rw [build_obj_eq row o hdef, if_neg he, if_pos hn] at hg; cases hg
          · rcases hep : o.entry_point with _ | ep
            · rw [build_obj_eq row o hdef, if_neg he, if_neg hn, hep] at hg
              cases hg
            · by_cases heps : ep = ""
              · rw [build_obj_eq row o hdef, if_neg he, if_neg hn, hep] at hg
                simp [heps] at hg
              · by_cases hc : ep ∈ (o.nodes.getD []).map (fun n => n.id)
                · rcases hfb : firstBadEdge ((o.nodes.getD []).map (fun n => n.id))
                      (o.edges.getD []) with _ | err
                  · exact ⟨Bool.eq_false_iff.mpr he, by simpa using hn,
                      ⟨ep, hep, heps, hc⟩, (firstBadEdge_none_iff _ _).mp hfb⟩
                  · rw [build_obj_eq row o hdef, if_neg he, if_neg hn, hep] at hg
                    simp [heps, hc, hfb] at hg
                · rw [build_obj_eq row o hdef, if_neg he, if_neg hn, hep] at hg
                  simp [heps, hc] at hg
    · intro hs
      unfold SpecCompilable at hs
      rcases hdef : row.graph_definition with _ | _ | o <;> rw [hdef] at hs
      · exact hs.elim
      · exact hs.elim
      · obtain ⟨he, hn, ⟨ep, hep, heps, hc⟩, hedges⟩ := hs
        refine ⟨⟨o.nodes.getD [], o.edges.getD [], ep⟩, ?_⟩
        rw [build_obj_eq row o hdef]
        simp only [if_neg (show ¬ o.isEmptyDict = true by simp [he]),
          if_neg (show ¬ (o.nodes.getD []).isEmpty = true by simpa using hn),
          hep, if_neg heps, if_neg (not_not_intro hc),
          (firstBadEdge_none_iff _ _).mpr hedges]
  · intro h
    rcases hdef : row.graph_definition with _ | _ | o
    · exact build_absent_eq row hdef
    · exact build_nonObject_eq row hdef
    · rw [hdef] at h
      rw [build_obj_eq row o hdef, if_pos (by simpa using h)]
  · intro o hdef he hn
    rw [build_obj_eq row o hdef, if_neg (by simp [he]), if_pos (by simpa using hn)]
  · intro o hdef he hn hep
    rcases hep with hep | hep
    · rw [build_obj_eq row o hdef, if_neg (by simp [he]),
        if_neg (by simpa using hn), hep]
    · rw [build_obj_eq row o hdef, if_neg (by simp [he]),
        if_neg (by simpa using hn), hep]
      rfl
  · intro o ep hdef he hn hep heps hc
    rw [build_obj_eq row o hdef, if_neg (by simp [he]),
      if_neg (by simpa using hn), hep]
    simp [heps, hc]
  · intro o ep err hdef he hn hep heps hc hfb
    refine ⟨?_, firstBadEdge_some_kind _ _ err hfb⟩
    rw [build_obj_eq row o hdef, if_neg (by simp [he]),
      if_neg (by simpa using hn), hep]
    simp [heps, hc, hfb]
  · intro c eid pid wid uid input err hfetch hins hb
    unfold execute
    simp [hfetch, hins, hb]

/-- A definition that is a non-empty object yet has an empty node list. -/
def noNodesRow : PipelineRow where
  name := none
  graph_definition := .obj
    { nodes := some [], edges := none, entry_point := none, otherKeys := false }
  required_agents := []
  required_mcps := []

/-- A well-formed two-node trigger-to-output definition. -/
def twoNodeRow : PipelineRow where
  name := none
  graph_definition := .obj
    { nodes := some [⟨"a", some "trigger", none, []⟩,
                     ⟨"b", some "output", none, []⟩]
      edges := some [⟨"a", "b"⟩]
      entry_point := some "a"
      otherKeys := false }
  required_agents := []
  required_mcps := []

/-- Witness for C2: a definition with a non-empty object but an empty node
list compiles to the distinct no-nodes error, and a well-formed two-node
definition compiles successfully. -/
theorem build_spec_witness :
    build noNodesRow = .error .noNodes ∧ ∃ g, build twoNodeRow = .ok g :=
  ⟨(build_spec noNodesRow).2.2.1 _ rfl rfl rfl,
   (build_spec twoNodeRow).1.mpr ⟨rfl, by simp, ⟨"a", rfl, by decide, by decide⟩,
     by decide⟩⟩

/-! ## Frame preservation of the node handlers -/

/-- The five identity fields a handler never overrides. -/
def preservesFrame (st st2 : PipelineState) : Prop :=
  st2.execution_id = st.execution_id ∧ st2.pipeline_id = st.pipeline_id ∧
  st2.workspace_id = st.workspace_id ∧ st2.user_id = st.user_id ∧
  st2.input_data = st.input_data

theorem handle_validation_frame (cid : String) (clabel : Option String)
    (deps : HandlerDeps) (st : PipelineState) :
    ∀ out, handle_validation cid clabel deps st = .ok out →
      preservesFrame st out.1 := by
  intro out h
  simp only [handle_validation] at h
  repeat' split at h
  all_goals first
    | exact Except.noConfusion h
    | (injection h with h; subst h; exact ⟨rfl, rfl, rfl, rfl, rfl⟩)

theorem agentCallLoop_earlyFail_state (deps : HandlerDeps) (st : PipelineState)
    (nid : String) :
    ∀ slugs acc total msgs st2,
      agentCallLoop deps st nid slugs acc total msgs = .ok (.earlyFail st2) →
      st2 = { st with
              current_node_id := nid
              error := some "Database client unavailable"
              status := "failed" } := by
  intro slugs
  induction slugs with
  | nil =>
    intro acc total msgs st2 h
    simp only [agentCallLoop] at h
    cases h
  | cons s rest ih =>
    intro acc total msgs st2 h
    simp only [agentCallLoop] at h
    split at h
    · injection h with h
      injection h with h
      exact h.symm
    · repeat' split at h
      all_goals first
        | exact Except.noConfusion h
        | exact ih _ _ _ _ h

theorem handle_agent_call_frame (cid : String) (clabel : Option String)
    (deps : HandlerDeps) (st : PipelineState) :
    ∀ out, handle_agent_call cid clabel deps st = .ok out →
      preservesFrame st out.1 := by
  intro out h
  simp only [handle_agent_call] at h
  split at h
  · injection h with h; subst h; exact ⟨rfl, rfl, rfl, rfl, rfl⟩
  · split at h
    · exact Except.noConfusion h
    · rename_i st2 heq
      have h2 := agentCallLoop_earlyFail_state deps st cid _ _ _ _ _ heq
      injection h with h
      subst h
      rw [h2]
      exact ⟨rfl, rfl, rfl, rfl, rfl⟩
    · injection h with h; subst h; exact ⟨rfl, rfl, rfl, rfl, rfl⟩

theorem handle_mcp_call_frame (cid : String) (clabel : Option String)
    (deps : HandlerDeps) (st : PipelineState) :
    ∀ out, handle_mcp_call cid clabel deps st = .ok out →
      preservesFrame st out.1 := by
  intro out h
  simp only [handle_mcp_call] at h
  repeat' split at h
  all_goals first
    | exact Except.noConfusion h
    | (injection h with h; subst h; exact ⟨rfl, rfl, rfl, rfl, rfl⟩)

theorem handle_newsletter_send_frame (cid : String) (clabel : Option String)
    (deps : HandlerDeps) (st : PipelineState) :
    ∀ out, handle_newsletter_send cid clabel deps st = .ok out →
      preservesFrame st out.1 := by
  intro out h
  simp only [handle_newsletter_send] at h
  repeat' split at h
  all_goals first
    | exact Except.noConfusion h
    | (injection h with h; subst h; exact ⟨rfl, rfl, rfl, rfl, rfl⟩)

theorem handle_human_gate_frame (cid : String) (clabel : Option String)
    (deps : HandlerDeps) (st : PipelineState) :
    ∀ out, handle_human_gate cid clabel deps st = .ok out →
      preservesFrame st out.1 := by
  intro out h
  simp only [handle_human_gate] at h
  injection h with h; subst h; exact ⟨rfl, rfl, rfl, rfl, rfl⟩

theorem handle_trigger_frame (cid : String) (clabel : Option String)
    (deps : HandlerDeps) (st : PipelineState) :
    ∀ out, handle_trigger cid clabel deps st = .ok out →
      preservesFrame st out.1 := by
  intro out h
  simp only [handle_trigger] at h
  injection h with h; subst h; exact ⟨rfl, rfl, rfl, rfl, rfl⟩

theorem handle_action_frame (cid : String) (clabel : Option String)
    (deps : HandlerDeps) (st : PipelineState) :
    ∀ out, handle_action cid clabel deps st = .ok out →
      preservesFrame st out.1 := by
  intro out h
  simp only [handle_action] at h
  injection h with h; subst h; exact ⟨rfl, rfl, rfl, rfl, rfl⟩

theorem handle_output_frame (cid : String) (clabel : Option String)
    (deps : HandlerDeps) (st : PipelineState) :
    ∀ out, handle_output cid clabel deps st = .ok out →
      preservesFrame st out.1 := by
  intro out h
  simp only [handle_output] at h
  injection h with h; subst h; exact ⟨rfl, rfl, rfl, rfl, rfl⟩

theorem dispatchHandler_frame (node : NodeDef) (deps : HandlerDeps)
    (st : PipelineState) :
    ∀ out, dispatchHandler node deps st = .ok out → preservesFrame st out.1 := by
  intro out h
  unfold dispatchHandler at h
  split at h
  all_goals first
    | exact handle_validation_frame _ _ deps st out h
    | exact handle_agent_call_frame _ _ deps st out h
    | exact handle_mcp_call_frame _ _ deps st out h
    | exact handle_newsletter_send_frame _ _ deps st out h
    | exact handle_human_gate_frame _ _ deps st out h
    | exact handle_trigger_frame _ _ deps st out h
    | exact handle_action_frame _ _ deps st out h
    | exact handle_output_frame _ _ deps st out h

/-- Claim C10: every node handler returns a state whose `execution_id`,
`pipeline_id`, `workspace_id`, `user_id` and `input_data` equal those of the
input state — handlers override only `current_node_id`, `results`,
`messages`, `step_costs`, `error` and `status`.  (The handlers build each
output by copy-and-override, so the input value itself is never mutated; in
this embedding states are immutable values by construction.) -/
theorem handlers_preserve_frame :
    (∀ cid clabel deps st out,
      handle_validation cid clabel deps st = .ok out → preservesFrame st out.1)
    ∧ (∀ cid clabel deps st out,
      handle_agent_call cid clabel deps st = .ok out → preservesFrame st out.1)
    ∧ (∀ cid clabel deps st out,
      handle_mcp_call cid clabel deps st = .ok out → preservesFrame st out.1)
    ∧ (∀ cid clabel deps st out,
      handle_newsletter_send cid clabel deps st = .ok out → preservesFrame st out.1)
    ∧ (∀ cid clabel deps st out,
      handle_human_gate cid clabel deps st = .ok out → preservesFrame st out.1)
    ∧ (∀ cid clabel deps st out,
      handle_trigger cid clabel deps st = .ok out → preservesFrame st out.1)
    ∧ (∀ cid clabel deps st out,
      handle_action cid clabel deps st = .ok out → preservesFrame st out.1)
    ∧ (∀ cid clabel deps st out,
      handle_output cid clabel deps st = .ok out → preservesFrame st out.1) :=
  ⟨fun cid clabel deps st => handle_validation_frame cid clabel deps st,
   fun cid clabel deps st => handle_agent_call_frame cid clabel deps st,
   fun cid clabel deps st => handle_mcp_call_frame cid clabel deps st,
   fun cid clabel deps st => handle_newsletter_send_frame cid clabel deps st,
   fun cid clabel deps st => handle_human_gate_frame cid clabel deps st,
   fun cid clabel deps st => handle_trigger_frame cid clabel deps st,
   fun cid clabel deps st => handle_action_frame cid clabel deps st,
   fun cid clabel deps st => handle_output_frame cid clabel deps st⟩

/-! ## Status invariant of the node handlers -/

/-- The status/error invariant the walk maintains: the status is one of the
four reachable statuses and a "failed" status always carries an error. -/
def StatusOk (st : PipelineState) : Prop :=
  (st.status = "running" ∨ st.status = "completed" ∨ st.status = "failed" ∨
    st.status = "awaiting_approval") ∧
  (st.status = "failed" → st.error.isSome = true)

theorem agentCallLoop_done_status (deps : HandlerDeps) (st : PipelineState)
    (nid : String) :
    ∀ slugs acc total msgs acc2 total2 msgs2,
      agentCallLoop deps st nid slugs acc total msgs = .ok (.done acc2 total2 msgs2) →
      True := fun _ _ _ _ _ _ _ _ => trivial

theorem handle_validation_statusOk (cid : String) (clabel : Option String)
    (deps : HandlerDeps) (st : PipelineState) (hst : StatusOk st) :
    ∀ out, handle_validation cid clabel deps st = .ok out → StatusOk out.1 := by
  intro out h
  simp only [handle_validation] at h
  repeat' split at h
  all_goals first
    | exact Except.noConfusion h
    | (injection h with h; subst h;
       first
         | exact hst
         | exact ⟨Or.inr (Or.inr (Or.inl rfl)), fun _ => rfl⟩)

theorem handle_agent_call_statusOk (cid : String) (clabel : Option String)
    (deps : HandlerDeps) (st : PipelineState) (hst : StatusOk st) :
    ∀ out, handle_agent_call cid clabel deps st = .ok out → StatusOk out.1 := by
  intro out h
  simp only [handle_agent_call] at h
  split at h
  · injection h with h; subst h
    exact ⟨Or.inr (Or.inr (Or.inl rfl)), fun _ => rfl⟩
  · split at h
    · exact Except.noConfusion h
    · rename_i st2 heq
      have h2 := agentCallLoop_earlyFail_state deps st cid _ _ _ _ _ heq
      injection h with h
      subst h
      rw [h2]
      exact ⟨Or.inr (Or.inr (Or.inl rfl)), fun _ => rfl⟩
    · injection h with h; subst h; exact hst

theorem handle_mcp_call_statusOk (cid : String) (clabel : Option String)
    (deps : HandlerDeps) (st : PipelineState) (hst : StatusOk st) :
    ∀ out, handle_mcp_call cid clabel deps st = .ok out → StatusOk out.1 := by
  intro out h
  simp only [handle_mcp_call] at h
  repeat' split at h
  all_goals first
    | exact Except.noConfusion h
    | (injection h with h; subst h;
       first
         | exact hst
         | exact ⟨Or.inr (Or.inr (Or.inl rfl)), fun _ => rfl⟩)

theorem handle_newsletter_send_statusOk (cid : String) (clabel : Option String)
    (deps : HandlerDeps) (st : PipelineState) (hst : StatusOk st) :
    ∀ out, handle_newsletter_send cid clabel deps st = .ok out → StatusOk out.1 := by
  intro out h
  simp only [handle_newsletter_send] at h
  repeat' split at h
  all_goals first
    | exact Except.noConfusion h
    | (injection h with h; subst h;
       first
         | exact hst
         | exact ⟨Or.inr (Or.inr (Or.inl rfl)), fun _ => rfl⟩)

theorem handle_human_gate_statusOk (cid : String) (clabel : Option String)
    (deps : HandlerDeps) (st : PipelineState) (_hst : StatusOk st) :
    ∀ out, handle_human_gate cid clabel deps st = .ok out → StatusOk out.1 := by
  intro out h
  simp only [handle_human_gate] at h
  injection h with h; subst h
  exact ⟨Or.inr (Or.inr (Or.inr rfl)), fun hh => by simp at hh⟩

theorem handle_trigger_statusOk (cid : String) (clabel : Option String)
    (deps : HandlerDeps) (st : PipelineState) (hst : StatusOk st) :
    ∀ out, handle_trigger cid clabel deps st = .ok out → StatusOk out.1 := by
  intro out h
  simp only [handle_trigger] at h
  injection h with h; subst h
  exact hst

theorem handle_action_statusOk (cid : String) (clabel : Option String)
    (deps : HandlerDeps) (st : PipelineState) (hst : StatusOk st) :
    ∀ out, handle_action cid clabel deps st = .ok out → StatusOk out.1 := by
  intro out h
  simp only [handle_action] at h
  injection h with h; subst h
  exact hst

theorem handle_output_statusOk (cid : String) (clabel : Option String)
    (deps : HandlerDeps) (st : PipelineState) (_hst : StatusOk st) :
    ∀ out, handle_output cid clabel deps st = .ok out → StatusOk out.1 := by
  intro out h
  simp only [handle_output] at h
  injection h with h; subst h
  exact ⟨Or.inr (Or.inl rfl), fun hh => by simp at hh⟩

theorem dispatchHandler_statusOk (node : NodeDef) (deps : HandlerDeps)
    (st : PipelineState) (hst : StatusOk st) :
    ∀ out, dispatchHandler node deps st = .ok out → StatusOk out.1 := by
  intro out h
  unfold dispatchHandler at h
  split at h
  all_goals first
    | exact handle_validation_statusOk _ _ deps st hst out h
    | exact handle_agent_call_statusOk _ _ deps st hst out h
    | exact handle_mcp_call_statusOk _ _ deps st hst out h
    | exact handle_newsletter_send_statusOk _ _ deps st hst out h
    | exact handle_human_gate_statusOk _ _ deps st hst out h
    | exact handle_trigger_statusOk _ _ deps st hst out h
    | exact handle_action_statusOk _ _ deps st hst out h
    | exact handle_output_statusOk _ _ deps st hst out h

/-! ## Effect inventory of the node handlers -/

/-- The effect kinds a node handler can emit (broadcasts plus the
human-gate pause write); engine-level effects never come from handlers. -/
def Effect.isHandlerEffect : Effect → Bool
  | .stepStart _ => true
  | .stepComplete _ _ => true
  | .approvalRequired _ => true
  | .pauseExecution _ => true
  | _ => false

theorem countP_broadcastIf (p : Effect → Bool) (ws : Bool) (l : List Effect) :
    (broadcastIf ws l).countP p = if ws then l.countP p else 0 := by
  cases ws <;> simp [broadcastIf]

/-- Inventory of a non-gate handler: no pause writes, no approval
broadcasts, only handler-kind effects. -/
def TameEffects (effs : List Effect) : Prop :=
  effs.countP Effect.isPause = 0 ∧ effs.countP Effect.isApprovalRequired = 0 ∧
  ∀ e ∈ effs, Effect.isHandlerEffect e = true

theorem handle_validation_effects (cid : String) (clabel : Option String)
    (deps : HandlerDeps) (st : PipelineState) :
    ∀ out, handle_validation cid clabel deps st = .ok out → TameEffects out.2 := by
  intro out h
  simp only [handle_validation] at h
  repeat' split at h
  all_goals first
    | exact Except.noConfusion h
    | (injection h with h; subst h;
       refine ⟨?_, ?_, ?_⟩ <;>
         cases hws : deps.wsManager <;>
           simp [broadcastIf, List.countP_append, List.countP_cons,
             Effect.isPause, Effect.isApprovalRequired, Effect.isHandlerEffect])

theorem handle_agent_call_effects (cid : String) (clabel : Option String)
    (deps : HandlerDeps) (st : PipelineState) :
    ∀ out, handle_agent_call cid clabel deps st = .ok out → TameEffects out.2 := by
  intro out h
  simp only [handle_agent_call] at h
  repeat' split at h
  all_goals first
    | exact Except.noConfusion h
    | (injection h with h; subst h;
       refine ⟨?_, ?_, ?_⟩ <;>
         cases hws : deps.wsManager <;>
           simp [broadcastIf, List.countP_append, List.countP_cons,
             Effect.isPause, Effect.isApprovalRequired, Effect.isHandlerEffect])

theorem handle_mcp_call_effects (cid : String) (clabel : Option String)
    (deps : HandlerDeps) (st : PipelineState) :
    ∀ out, handle_mcp_call cid clabel deps st = .ok out → TameEffects out.2 := by
  intro out h
  simp only [handle_mcp_call] at h
  repeat' split at h
  all_goals first
    | exact Except.noConfusion h
    | (injection h with h; subst h;
       refine ⟨?_, ?_, ?_⟩ <;>
         cases hws : deps.wsManager <;>
           simp [broadcastIf, List.countP_append, List.countP_cons,
             Effect.isPause, Effect.isApprovalRequired, Effect.isHandlerEffect])

theorem handle_newsletter_send_effects (cid : String) (clabel : Option String)
    (deps : HandlerDeps) (st : PipelineState) :
    ∀ out, handle_newsletter_send cid clabel deps st = .ok out → TameEffects out.2 := by
  intro out h
  simp only [handle_newsletter_send] at h
  repeat' split at h
  all_goals first
    | exact Except.noConfusion h
    | (injection h with h; subst h;
       refine ⟨?_, ?_, ?_⟩ <;>
         cases hws : deps.wsManager <;>
           simp [broadcastIf, List.countP_append, List.countP_cons,
             Effect.isPause, Effect.isApprovalRequired, Effect.isHandlerEffect])

theorem handle_trigger_effects (cid : String) (clabel : Option String)
    (deps : HandlerDeps) (st : PipelineState) :
    ∀ out, handle_trigger cid clabel deps st = .ok out → TameEffects out.2 := by
  intro out h
  simp only [handle_trigger] at h
  injection h with h
  subst h
  refine ⟨?_, ?_, ?_⟩ <;>
    cases hws : deps.wsManager <;>
      simp [broadcastIf, List.countP_append, List.countP_cons,
        Effect.isPause, Effect.isApprovalRequired, Effect.isHandlerEffect]

theorem handle_action_effects (cid : String) (clabel : Option String)
    (deps : HandlerDeps) (st : PipelineState) :
    ∀ out, handle_action cid clabel deps st = .ok out → TameEffects out.2 := by
  intro out h
  simp only [handle_action] at h
  injection h with h
  subst h
  refine ⟨?_, ?_, ?_⟩ <;>
    cases hws : deps.wsManager <;>
      simp [broadcastIf, List.countP_append, List.countP_cons,
        Effect.isPause, Effect.isApprovalRequired, Effect.isHandlerEffect]

theorem handle_output_effects (cid : String) (clabel : Option String)
    (deps : HandlerDeps) (st : PipelineState) :
    ∀ out, handle_output cid clabel deps st = .ok out → TameEffects out.2 := by
  intro out h
  simp only [handle_output] at h
  injection h with h
  subst h
  refine ⟨?_, ?_, ?_⟩ <;>
    cases hws : deps.wsManager <;>
      simp [broadcastIf, List.countP_append, List.countP_cons,
        Effect.isPause, Effect.isApprovalRequired, Effect.isHandlerEffect]

/-- Effect inventory of `handle_human_gate`: exactly one pause write when the
persistence handle is present and exactly one approval broadcast when the
WebSocket manager is present. -/
theorem handle_human_gate_effects (cid : String) (clabel : Option String)
    (deps : HandlerDeps) (st : PipelineState) :
    ∀ out, handle_human_gate cid clabel deps st = .ok out →
      out.2.countP Effect.isPause = (if deps.supabaseOk then 1 else 0) ∧
      out.2.countP Effect.isApprovalRequired = (if deps.wsManager then 1 else 0) ∧
      ∀ e ∈ out.2, Effect.isHandlerEffect e = true := by
  intro out h
  simp only [handle_human_gate] at h
  injection h with h
  subst h
  refine ⟨?_, ?_, ?_⟩ <;>
    cases hws : deps.wsManager <;> cases hdb : deps.supabaseOk <;>
      simp [broadcastIf, List.countP_append, List.countP_cons,
        Effect.isPause, Effect.isApprovalRequired, Effect.isHandlerEffect]

/-- Per-node pause-write count of one handler invocation. -/
theorem dispatchHandler_pause_count (node : NodeDef) (deps : HandlerDeps)
    (st : PipelineState) :
    ∀ out, dispatchHandler node deps st = .ok out →
      out.2.countP Effect.isPause =
        (if node.type.getD "action" = "human_gate"
         then (if deps.supabaseOk then 1 else 0) else 0) := by
  intro out h
  unfold dispatchHandler at h
  split at h
  all_goals first
    | (rename_i harm
       rw [harm, if_pos rfl]
       exact (handle_human_gate_effects _ _ deps st out h).1)
    | (rename_i harm
       rw [harm, if_neg (by decide)]
       first
         | exact (handle_validation_effects _ _ deps st out h).1
         | exact (handle_agent_call_effects _ _ deps st out h).1
         | exact (handle_mcp_call_effects _ _ deps st out h).1
         | exact (handle_newsletter_send_effects _ _ deps st out h).1
         | exact (handle_trigger_effects _ _ deps st out h).1
         | exact (handle_action_effects _ _ deps st out h).1
         | exact (handle_output_effects _ _ deps st out h).1)
    | (rename_i s hv ha hm hnl hg ht hac ho
       rw [if_neg hg]
       exact (handle_action_effects _ _ deps st out h).1)

/-- Per-node approval-broadcast count of one handler invocation. -/
theorem dispatchHandler_approval_count (node : NodeDef) (deps : HandlerDeps)
    (st : PipelineState) :
    ∀ out, dispatchHandler node deps st = .ok out →
      out.2.countP Effect.isApprovalRequired =
        (if node.type.getD "action" = "human_gate"
         then (if deps.wsManager then 1 else 0) else 0) := by
  intro out h
  unfold dispatchHandler at h
  split at h
  all_goals first
    | (rename_i harm
       rw [harm, if_pos rfl]
       exact (handle_human_gate_effects _ _ deps st out h).2.1)
    | (rename_i harm
       rw [harm, if_neg (by decide)]
       first
         | exact (handle_validation_effects _ _ deps st out h).2.1
         | exact (handle_agent_call_effects _ _ deps st out h).2.1
         | exact (handle_mcp_call_effects _ _ deps st out h).2.1
         | exact (handle_newsletter_send_effects _ _ deps st out h).2.1
         | exact (handle_trigger_effects _ _ deps st out h).2.1
         | exact (handle_action_effects _ _ deps st out h).2.1
         | exact (handle_output_effects _ _ deps st out h).2.1)
    | (rename_i s hv ha hm hnl hg ht hac ho
       rw [if_neg hg]
       exact (handle_action_effects _ _ deps st out h).2.1)

/-- Every effect a handler emits is a handler-kind effect. -/
theorem dispatchHandler_effects_kind (node : NodeDef) (deps : HandlerDeps)
    (st : PipelineState) :
    ∀ out, dispatchHandler node deps st = .ok out →
      ∀ e ∈ out.2, Effect.isHandlerEffect e = true := by
  intro out h
  unfold dispatchHandler at h
  split at h
  all_goals first
    | exact (handle_validation_effects _ _ deps st out h).2.2
    | exact (handle_agent_call_effects _ _ deps st out h).2.2
    | exact (handle_mcp_call_effects _ _ deps st out h).2.2
    | exact (handle_newsletter_send_effects _ _ deps st out h).2.2
    | exact (handle_human_gate_effects _ _ deps st out h).2.2
    | exact (handle_trigger_effects _ _ deps st out h).2.2
    | exact (handle_action_effects _ _ deps st out h).2.2
    | exact (handle_output_effects _ _ deps st out h).2.2

/-! ## Walker lemmas -/

theorem okTriple_inj {A B C : Type} {a1 a2 : A} {b1 b2 : B} {c1 c2 : C}
    (h : (Except.ok (a1, b1, c1) : Except String (A × B × C)) = .ok (a2, b2, c2)) :
    a1 = a2 ∧ b1 = b2 ∧ c1 = c2 := by
  injection h with h
  exact ⟨congrArg (fun t => t.1) h, congrArg (fun t => t.2.1) h,
    congrArg (fun t => t.2.2) h⟩

theorem getLast?_of_mem_not_dropLast {α : Type} {l : List α} {a : α}
    (hm : a ∈ l) (hnd : a ∉ l.dropLast) : l.getLast? = some a := by
  cases l with
  | nil => cases hm
  | cons b t =>
    have hne : b :: t ≠ [] := by simp
    have hsplit := List.dropLast_concat_getLast hne
    rw [← hsplit] at hm
    rcases List.mem_append.mp hm with h1 | h2
    · exact absurd h1 hnd
    · have ha : a = (b :: t).getLast hne := by simpa using h2
      rw [ha]
      exact List.getLast?_eq_getLast _ hne

/-- The walk preserves the status invariant. -/
theorem runGraph_statusOk (g : CompiledGraph) (deps : HandlerDeps) :
    ∀ fuel start st fin vis effs,
      runGraph g deps fuel start st = .ok (fin, vis, effs) → StatusOk st →
      StatusOk fin := by
  intro fuel
  induction fuel with
  | zero =>
    intro start st fin vis effs h
    simp [runGraph] at h
  | succ n ih =>
    intro start st fin vis effs h hst
    simp only [runGraph] at h
    split at h
    · obtain ⟨hfin, _, _⟩ := okTriple_inj h
      exact hfin ▸ hst
    · split at h
      · exact Except.noConfusion h
      · rename_i node hnode
        split at h
        · exact Except.noConfusion h
        · rename_i st2 effs2 heq
          have hst2 := dispatchHandler_statusOk node deps st hst (st2, effs2) heq
          split at h
          · obtain ⟨hfin, _, _⟩ := okTriple_inj h
            exact hfin ▸ hst2
          · split at h
            · exact Except.noConfusion h
            · rename_i fin0 vis0 effs0 hrec
              obtain ⟨hfin, _, _⟩ := okTriple_inj h
              exact hfin ▸ ih _ _ _ _ _ hrec hst2

/-- The final state of a non-empty walk is the output of the last visited
node's handler (at the state that reached it); an empty walk returns the
initial state. -/
theorem runGraph_last_spec (g : CompiledGraph) (deps : HandlerDeps) :
    ∀ fuel start st fin vis effs,
      runGraph g deps fuel start st = .ok (fin, vis, effs) →
      (vis = [] ∧ fin = st) ∨
      (∃ last node s out, vis.getLast? = some last ∧ g.findNode last = some node ∧
        dispatchHandler node deps s = .ok out ∧ fin = out.1) := by
  intro fuel
  induction fuel with
  | zero =>
    intro start st fin vis effs h
    simp [runGraph] at h
  | succ n ih =>
    intro start st fin vis effs h
    simp only [runGraph] at h
    split at h
    · obtain ⟨hfin, hvis, _⟩ := okTriple_inj h
      exact Or.inl ⟨hvis.symm, hfin.symm⟩
    · split at h
      · exact Except.noConfusion h
      · rename_i node hnode
        split at h
        · exact Except.noConfusion h
        · rename_i st2 effs2 heq
          split at h
          · obtain ⟨hfin, hvis, _⟩ := okTriple_inj h
            refine Or.inr ⟨_, node, st, (st2, effs2), ?_, hnode, heq, hfin.symm⟩
            rw [← hvis]
            rfl
          · split at h
            · exact Except.noConfusion h
            · rename_i fin0 vis0 effs0 hrec
              obtain ⟨hfin, hvis, _⟩ := okTriple_inj h
              rcases ih _ _ _ _ _ hrec with ⟨hv0, hf0⟩ | ⟨last, node2, s, out, h1, h2, h3, h4⟩
              · refine Or.inr ⟨_, node, st, (st2, effs2), ?_, hnode, heq, ?_⟩
                · rw [← hvis, hv0]
                  rfl
                · rw [← hfin, hf0]
              · refine Or.inr ⟨last, node2, s, out, ?_, h2, h3, ?_⟩
                · rw [← hvis]
                  cases vis0 with
                  | nil => simp at h1
                  | cons b t => rw [List.getLast?_cons_cons]; exact h1
                · rw [← hfin]; exact h4
            
/-- Every visited node other than the last one produced a handler output
that neither failed nor awaited approval (the walk only continues past
non-halting states). -/
theorem runGraph_nonlast_progress (g : CompiledGraph) (deps : HandlerDeps) :
    ∀ fuel start st fin vis effs,
      runGraph g deps fuel start st = .ok (fin, vis, effs) →
      ∀ nd, nd ∈ vis.dropLast →
        ∃ node s st2 effs2, g.findNode nd = some node ∧
          dispatchHandler node deps s = .ok (st2, effs2) ∧
          st2.status ≠ "failed" ∧ st2.status ≠ "awaiting_approval" := by
  intro fuel
  induction fuel with
  | zero =>
    intro start st fin vis effs h
    simp [runGraph] at h
  | succ n ih =>
    intro start st fin vis effs h nd hmem
    simp only [runGraph] at h
    split at h
    · obtain ⟨_, hvis, _⟩ := okTriple_inj h
      rw [← hvis] at hmem
      simp at hmem
    · split at h
      · exact Except.noConfusion h
      · rename_i node hnode
        split at h
        · exact Except.noConfusion h
        · rename_i st2 effs2 heq
          split at h
          · obtain ⟨_, hvis, _⟩ := okTriple_inj h
            rw [← hvis] at hmem
            simp at hmem
          · rename_i hcond
            split at h
            · exact Except.noConfusion h
            · rename_i fin0 vis0 effs0 hrec
              obtain ⟨_, hvis, _⟩ := okTriple_inj h
              rw [← hvis] at hmem
              have hcond2 : st2.status ≠ "failed" ∧ st2.status ≠ "awaiting_approval" := by
                simpa [not_or] using hcond
              cases vis0 with
              | nil => simp at hmem
              | cons b t =>
                rw [List.dropLast_cons₂] at hmem
                rcases List.mem_cons.mp hmem with hnd | hnd
                · subst hnd
                  exact ⟨node, st, st2, effs2, hnode, heq, hcond2.1, hcond2.2⟩
                · exact ih _ _ _ _ _ hrec nd hnd

/-- A uniform per-node effect count carries over to the whole walk. -/
theorem runGraph_countP (g : CompiledGraph) (deps : HandlerDeps)
    (p : Effect → Bool) (contrib : String → ℕ)
    (hc : ∀ nodeId node st st2 effs2, g.findNode nodeId = some node →
      dispatchHandler node deps st = .ok (st2, effs2) →
      effs2.countP p = contrib nodeId) :
    ∀ fuel start st fin vis effs,
      runGraph g deps fuel start st = .ok (fin, vis, effs) →
      effs.countP p = (vis.map contrib).sum := by
  intro fuel
  induction fuel with
  | zero =>
    intro start st fin vis effs h
    simp [runGraph] at h
  | succ n ih =>
    intro start st fin vis effs h
    simp only [runGraph] at h
    split at h
    · obtain ⟨_, hvis, heffs⟩ := okTriple_inj h
      rw [← hvis, ← heffs]
      rfl
    · split at h
      · exact Except.noConfusion h
      · rename_i node hnode
        split at h
        · exact Except.noConfusion h
        · rename_i st2 effs2 heq
          split at h
          · obtain ⟨_, hvis, heffs⟩ := okTriple_inj h
            rw [← hvis, ← heffs]
            simp [hc _ node st st2 effs2 hnode heq]
          · split at h
            · exact Except.noConfusion h
            · rename_i fin0 vis0 effs0 hrec
              obtain ⟨_, hvis, heffs⟩ := okTriple_inj h
              rw [← hvis, ← heffs]
              simp [List.countP_append, hc _ node st st2 effs2 hnode heq,
                ih _ _ _ _ _ hrec]

/-! ## Claim C3: tool_call failure -/

/-- The failed state `handle_mcp_call` returns when the single tool
invocation raises. -/
def mcpFailState (cid name msg : String) (st : PipelineState) : PipelineState :=
  { st with
    current_node_id := cid
    error := some ("MCP \x27" ++ name ++ "\x27 execution failed: " ++ msg)
    status := "failed"
    results := upsert st.results cid (.obj [("error", .str msg)]) }

theorem handle_mcp_call_fail (cid : String) (clabel : Option String)
    (deps : HandlerDeps) (name msg : String)
    (hres : resolvedMcpName deps (clabel.getD cid) = some name)
    (htool : ∀ ws p, deps.mcpExecuteTool name ws "execute" p = .error msg)
    (st : PipelineState) :
    handle_mcp_call cid clabel deps st =
      .ok (mcpFailState cid name msg st,
           broadcastIf deps.wsManager [.stepStart cid]) := by
  simp only [handle_mcp_call, hres, htool, mcpFailState]

/-- Claim C3: for every graph containing an mcp_call node whose (single)
tool invocation raises, any walk that reaches the node ends with status
"failed", the error set, `results[node_id]` holding the error entry, and
with that node as the last visited node — no handler of any node runs after
the failure. -/
theorem mcp_call_failure_halts (g : CompiledGraph) (deps : HandlerDeps)
    (m name msg : String) (node : NodeDef)
    (hfind : g.findNode m = some node)
    (htype : node.type.getD "action" = "mcp_call")
    (hres : resolvedMcpName deps (node.label.getD node.id) = some name)
    (htool : ∀ ws p, deps.mcpExecuteTool name ws "execute" p = .error msg) :
    ∀ fuel start st fin vis effs,
      runGraph g deps fuel start st = .ok (fin, vis, effs) → m ∈ vis →
      fin.status = "failed" ∧
      fin.error = some ("MCP \x27" ++ name ++ "\x27 execution failed: " ++ msg) ∧
      lookup fin.results node.id = some (.obj [("error", .str msg)]) ∧
      vis.getLast? = some m := by
  intro fuel start st fin vis effs h hm
  have hdisp : ∀ s, dispatchHandler node deps s =
      .ok (mcpFailState node.id name msg s,
           broadcastIf deps.wsManager [.stepStart node.id]) := by
    intro s
    unfold dispatchHandler
    rw [htype]
    exact handle_mcp_call_fail node.id node.label deps name msg hres htool s
  have hnd : m ∉ vis.dropLast := by
    intro hmem
    obtain ⟨node2, s, st2, effs2, hfind2, heq2, hns1, _⟩ :=
      runGraph_nonlast_progress g deps fuel start st fin vis effs h m hmem
    rw [hfind] at hfind2
    injection hfind2 with hfind2
    subst hfind2
    rw [hdisp s] at heq2
    injection heq2 with heq2
    have hstat : st2.status = "failed" :=
      (congrArg (fun t => t.1.status) heq2).symm ▸ rfl
    exact hns1 hstat
  have hlast := getLast?_of_mem_not_dropLast hm hnd
  rcases runGraph_last_spec g deps fuel start st fin vis effs h with
    ⟨hv, _⟩ | ⟨last, node2, s, out, h1, h2, h3, h4⟩
  · rw [hv] at hm; cases hm
  · rw [hlast] at h1
    injection h1 with h1
    subst h1
    rw [hfind] at h2
    injection h2 with h2
    subst h2
    rw [hdisp s] at h3
    injection h3 with h3
    subst h4
    rw [← h3]
    exact ⟨rfl, rfl, lookup_upsert_self _ _ _, hlast⟩

/-- Concrete dependencies whose MCP tool invocation always raises. -/
def c3deps : HandlerDeps where
  wsManager := false
  supabaseOk := true
  agentLookup := fun _ => .ok none
  llmInvoke := fun _ _ => .error "no llm"
  mcpExecuteTool := fun _ _ _ _ => .error "boom"
  requiredAgents := []
  requiredMcps := []
  fetchSubscribers := fun _ => .ok []
  parseJsonBlock := fun _ => .noMatch

/-- A trigger-to-mcp-to-output graph. -/
def c3graph : CompiledGraph where
  nodes := [⟨"t", some "trigger", none, []⟩,
            ⟨"m", some "mcp_call", some "crawl (FireCrawl)", []⟩,
            ⟨"o", some "output", none, []⟩]
  edges := [⟨"t", "m"⟩, ⟨"m", "o"⟩]
  entry := "t"

/-- The final state of the C3 witness walk. -/
def c3fin : PipelineState where
  execution_id := "e"
  pipeline_id := "p"
  workspace_id := "w"
  user_id := "u"
  input_data := []
  current_node_id := "m"
  results := [("t", .obj [("triggered", .bool true), ("trigger_input", .obj []),
                          ("label", .str "t")]),
              ("m", .obj [("error", .str "boom")])]
  messages := []
  step_costs := []
  error := some "MCP \x27firecrawl\x27 execution failed: boom"
  status := "failed"

/-- Witness for C3: a concrete three-node walk whose mcp node raises halts
at the mcp node with the failed state; the output node never runs. -/
theorem mcp_call_failure_halts_witness :
    c3fin.status = "failed" ∧
    c3fin.error = some "MCP \x27firecrawl\x27 execution failed: boom" ∧
    lookup c3fin.results "m" = some (.obj [("error", .str "boom")]) ∧
    (["t", "m"] : List String).getLast? = some "m" :=
  mcp_call_failure_halts c3graph c3deps "m" "firecrawl" "boom"
    ⟨"m", some "mcp_call", some "crawl (FireCrawl)", []⟩
    rfl rfl rfl (fun _ _ => rfl) 25 "t" (initialState "e" "p" "w" "u" [])
    c3fin ["t", "m"] [] rfl (by simp)

/-! ## Claim C4: human gate -/

/-- The state `handle_human_gate` always returns. -/
def gateState (cid label : String) (st : PipelineState) : PipelineState :=
  { st with
    current_node_id := cid
    status := "awaiting_approval"
    results := upsert st.results cid
      (.obj [("status", .str "awaiting_approval"), ("label", .str label)]) }

/-- The effects `handle_human_gate` always emits. -/
def gateEffects (cid : String) (deps : HandlerDeps) (st : PipelineState) :
    List Effect :=
  broadcastIf deps.wsManager [.stepStart cid]
    ++ broadcastIf deps.wsManager [.approvalRequired cid]
    ++ (if deps.supabaseOk then [.pauseExecution st.execution_id] else [])

theorem handle_human_gate_eq (cid : String) (clabel : Option String)
    (deps : HandlerDeps) (st : PipelineState) :
    handle_human_gate cid clabel deps st =
      .ok (gateState cid (clabel.getD cid) st, gateEffects cid deps st) := rfl

/-- Per-node pause contribution of the walk. -/
def gatePauseContrib (g : CompiledGraph) (deps : HandlerDeps) (n : String) : ℕ :=
  match g.findNode n with
  | some nd => if nd.type.getD "action" = "human_gate"
               then (if deps.supabaseOk then 1 else 0) else 0
  | none => 0

/-- Per-node approval-broadcast contribution of the walk. -/
def gateApprovalContrib (g : CompiledGraph) (deps : HandlerDeps) (n : String) : ℕ :=
  match g.findNode n with
  | some nd => if nd.type.getD "action" = "human_gate"
               then (if deps.wsManager then 1 else 0) else 0
  | none => 0

/-- Claim C4: every run that reaches a human_gate node ends with status
"awaiting_approval", exactly one persistence call setting the stored status
to "paused", exactly one "approval_required" broadcast, and the gate as the
last visited node — the run does not advance further in this `execute`
call. -/
theorem human_gate_walk_spec (g : CompiledGraph) (deps : HandlerDeps)
    (gid : String) (node : NodeDef)
    (hfind : g.findNode gid = some node)
    (htype : node.type.getD "action" = "human_gate")
    (hdb : deps.supabaseOk = true) (hws : deps.wsManager = true) :
    ∀ fuel start st fin vis effs,
      runGraph g deps fuel start st = .ok (fin, vis, effs) → gid ∈ vis →
      fin.status = "awaiting_approval" ∧
      effs.countP Effect.isPause = 1 ∧
      effs.countP Effect.isApprovalRequired = 1 ∧
      vis.getLast? = some gid := by
  intro fuel start st fin vis effs h hm
  have hdisp : ∀ nd2, g.findNode gid = some nd2 → ∀ s,
      dispatchHandler nd2 deps s =
        .ok (gateState nd2.id (nd2.label.getD nd2.id) s, gateEffects nd2.id deps s) := by
    intro nd2 hf2 s
    rw [hfind] at hf2
    injection hf2 with hf2
    subst hf2
    unfold dispatchHandler
    rw [htype]
    exact handle_human_gate_eq node.id node.label deps s
  have hnd : gid ∉ vis.dropLast := by
    intro hmem
    obtain ⟨node2, s, st2, effs2, hfind2, heq2, _, hns2⟩ :=
      runGraph_nonlast_progress g deps fuel start st fin vis effs h gid hmem
    rw [hdisp node2 hfind2 s] at heq2
    injection heq2 with heq2
    have hstat : st2.status = "awaiting_approval" :=
      (congrArg (fun t => t.1.status) heq2).symm ▸ rfl
    exact hns2 hstat
  have hlast := getLast?_of_mem_not_dropLast hm hnd
  have hvne : vis ≠ [] := by
    intro hv
    rw [hv] at hm
    cases hm
  have hgl : vis.getLast hvne = gid := by
    have hx := List.getLast?_eq_getLast vis hvne
    rw [hlast] at hx
    injection hx with hx
    exact hx.symm
  have hvsplit : vis = vis.dropLast ++ [gid] := by
    rw [← hgl]
    exact (List.dropLast_concat_getLast hvne).symm
  have hall0 : ∀ n ∈ vis.dropLast,
      (∀ nd2, g.findNode n = some nd2 → nd2.type.getD "action" ≠ "human_gate") := by
    intro n hnmem nd2 hfn2 hty2
    obtain ⟨node3, s, st2, effs2, hfind3, heq3, _, hns2⟩ :=
      runGraph_nonlast_progress g deps fuel start st fin vis effs h n hnmem
    rw [hfn2] at hfind3
    injection hfind3 with hfind3
    subst hfind3
    have hga : dispatchHandler nd2 deps s =
        .ok (gateState nd2.id (nd2.label.getD nd2.id) s, gateEffects nd2.id deps s) := by
      unfold dispatchHandler
      rw [hty2]
      exact handle_human_gate_eq nd2.id nd2.label deps s
    rw [hga] at heq3
    injection heq3 with heq3
    have hstat : st2.status = "awaiting_approval" :=
      (congrArg (fun t => t.1.status) heq3).symm ▸ rfl
    exact hns2 hstat
  refine ⟨?_, ?_, ?_, hlast⟩
  · rcases runGraph_last_spec g deps fuel start st fin vis effs h with
      ⟨hv, _⟩ | ⟨last, node2, s, out, h1, h2, h3, h4⟩
    · exact absurd hv hvne
    · rw [hlast] at h1
      injection h1 with h1
      subst h1
      rw [hdisp node2 h2 s] at h3
      injection h3 with h3
      subst h4
      rw [← h3]
      rfl
  · have hc : ∀ nodeId nd s st2 effs2, g.findNode nodeId = some nd →
        dispatchHandler nd deps s = .ok (st2, effs2) →
        effs2.countP Effect.isPause = gatePauseContrib g deps nodeId := by
      intro nodeId nd s st2 effs2 hfn heq
      unfold gatePauseContrib
      rw [hfn]
      exact dispatchHandler_pause_count nd deps s (st2, effs2) heq
    have hcount := runGraph_countP g deps Effect.isPause (gatePauseContrib g deps)
      hc fuel start st fin vis effs h
    rw [hcount, hvsplit, List.map_append, List.sum_append]
    have hzero : ((vis.dropLast.map (gatePauseContrib g deps)).sum = 0) := by
      apply List.sum_eq_zero
      intro x hx
      obtain ⟨n, hnmem, hxe⟩ := List.mem_map.mp hx
      rw [← hxe]
      cases hfn : g.findNode n with
      | none => simp [gatePauseContrib, hfn]
      | some nd => simp [gatePauseContrib, hfn, hall0 n hnmem nd hfn]
    rw [hzero]
    simp [gatePauseContrib, hfind, htype, hdb]
  · have hc : ∀ nodeId nd s st2 effs2, g.findNode nodeId = some nd →
        dispatchHandler nd deps s = .ok (st2, effs2) →
        effs2.countP Effect.isApprovalRequired = gateApprovalContrib g deps nodeId := by
      intro nodeId nd s st2 effs2 hfn heq
      unfold gateApprovalContrib
      rw [hfn]
      exact dispatchHandler_approval_count nd deps s (st2, effs2) heq
    have hcount := runGraph_countP g deps Effect.isApprovalRequired
      (gateApprovalContrib g deps) hc fuel start st fin vis effs h
    rw [hcount, hvsplit, List.map_append, List.sum_append]
    have hzero : ((vis.dropLast.map (gateApprovalContrib g deps)).sum = 0) := by
      apply List.sum_eq_zero
      intro x hx
      obtain ⟨n, hnmem, hxe⟩ := List.mem_map.mp hx
      rw [← hxe]
      cases hfn : g.findNode n with
      | none => simp [gateApprovalContrib, hfn]
      | some nd => simp [gateApprovalContrib, hfn, hall0 n hnmem nd hfn]
    rw [hzero]
    simp [gateApprovalContrib, hfind, htype, hws]

/-- Concrete dependencies for the human-gate witness (WebSocket manager and
persistence handle both present). -/
def c4deps : HandlerDeps where
  wsManager := true
  supabaseOk := true
  agentLookup := fun _ => .ok none
  llmInvoke := fun _ _ => .error "no llm"
  mcpExecuteTool := fun _ _ _ _ => .error "no mcp"
  requiredAgents := []
  requiredMcps := []
  fetchSubscribers := fun _ => .ok []
  parseJsonBlock := fun _ => .noMatch

/-- A trigger-to-gate-to-output graph. -/
def c4graph : CompiledGraph where
  nodes := [⟨"t", some "trigger", none, []⟩,
            ⟨"gate", some "human_gate", some "approve", []⟩,
            ⟨"o", some "output", none, []⟩]
  edges := [⟨"t", "gate"⟩, ⟨"gate", "o"⟩]
  entry := "t"

/-- The final state of the C4 witness walk. -/
def c4fin : PipelineState where
  execution_id := "e"
  pipeline_id := "p"
  workspace_id := "w"
  user_id := "u"
  input_data := []
  current_node_id := "gate"
  results := [("t", .obj [("triggered", .bool true), ("trigger_input", .obj []),
                          ("label", .str "t")]),
              ("gate", .obj [("status", .str "awaiting_approval"),
                             ("label", .str "approve")])]
  messages := []
  step_costs := []
  error := none
  status := "awaiting_approval"

/-- The effect trace of the C4 witness walk. -/
def c4effs : List Effect :=
  [.stepStart "t", .stepComplete "t" "Trigger activated",
   .stepStart "gate", .approvalRequired "gate", .pauseExecution "e"]

/-- Witness for C4: a concrete walk reaching the gate ends awaiting
approval with exactly one pause write and one approval broadcast, and the
gate is the last executed node. -/
theorem human_gate_walk_spec_witness :
    c4fin.status = "awaiting_approval" ∧
    c4effs.countP Effect.isPause = 1 ∧
    c4effs.countP Effect.isApprovalRequired = 1 ∧
    (["t", "gate"] : List String).getLast? = some "gate" :=
  human_gate_walk_spec c4graph c4deps "gate"
    ⟨"gate", some "human_gate", some "approve", []⟩
    rfl rfl rfl rfl 25 "t" (initialState "e" "p" "w" "u" [])
    c4fin ["t", "gate"] c4effs rfl (by simp)

/-! ## Claim C1: the exception boundary of execute -/

/-- Clients whose store raises while inserting the initial execution
record; all other collaborators behave. -/
def c1badClients : EngineClients where
  wsManager := true
  agentLookup := fun _ => .ok none
  llmInvoke := fun _ _ => .error "no llm"
  mcpExecuteTool := fun _ _ _ _ => .error "no mcp"
  fetchSubscribers := fun _ => .ok []
  parseJsonBlock := fun _ => .noMatch
  fetchPipeline := .ok (some twoNodeRow)
  insertExecutionCall := .error "db insert failed"
  updateFailedCall := .ok ()
  updateCompletedCall := .ok ()
  insertStepsCall := .ok ()
  creditDeductCall := .ok ()
  insertAuditCall := .ok ()
  sendCompleteCall := .ok ()
  sendErrorCall := .ok ()

/-- Counterexample to C1 as stated: when the store raises during the
initial `pipeline_executions` insert, `_insert_execution` re-raises after
logging and `execute` propagates the exception to its caller — the claim
that no exception escapes for every collaborator behaviour is false. -/
theorem execute_exception_counterexample :
    execute c1badClients "e1" "p1" "w1" "u1" [] = .error "db insert failed" := rfl

/-- Claim C1 (amended): provided the definition fetch and the initial
execution-record insert do not raise, `execute` returns a structured result
for every behaviour of the remaining collaborators (graph walk, final
update, step insert, billing, audit, broadcasts): the result carries one of
the engine statuses, and a "failed" status always carries an error
string. -/
theorem execute_no_exception (c : EngineClients) (eid pid wid uid : String)
    (input : List (String × Val))
    (hfetch : ∀ e, c.fetchPipeline ≠ .error e)
    (hins : ∀ e, c.insertExecutionCall ≠ .error e) :
    ∃ res effs vis, execute c eid pid wid uid input = .ok (res, effs, vis) ∧
      (res.status = "running" ∨ res.status = "completed" ∨ res.status = "failed" ∨
        res.status = "awaiting_approval") ∧
      (res.status = "failed" → res.error.isSome = true) := by
  rcases hf : c.fetchPipeline with e | rowOpt
  · exact absurd hf (hfetch e)
  · rcases rowOpt with _ | row
    · refine ⟨_, _, _, by simp only [execute, hf]; rfl, ?_, ?_⟩
      · exact Or.inr (Or.inr (Or.inl rfl))
      · intro _; rfl
    · rcases hi : c.insertExecutionCall with e | u
      · exact absurd hi (hins e)
      · rcases hb : build row with err | g
        · refine ⟨_, _, _, by simp only [execute, hf, hi, hb]; rfl, ?_, ?_⟩
          · exact Or.inr (Or.inr (Or.inl rfl))
          · intro _; rfl
        · rcases hr : runGraph g (mkDeps c row) RECURSION_LIMIT g.entry
              (initialState eid pid wid uid input) with e2 | trip
          · refine ⟨_, _, _, by simp only [execute, hf, hi, hb, hr]; rfl, ?_, ?_⟩
            · exact Or.inr (Or.inr (Or.inl rfl))
            · intro _; rfl
          · rcases trip with ⟨fin, vis, heffs⟩
            have hstat := runGraph_statusOk g (mkDeps c row) RECURSION_LIMIT
              g.entry (initialState eid pid wid uid input) fin vis heffs hr
              ⟨Or.inl rfl, fun hh => by simp [initialState] at hh⟩
            refine ⟨_, _, _, by simp only [execute, hf, hi, hb, hr]; rfl, ?_, ?_⟩
            · by_cases hE : (errTruthy fin.error &&
                  decide (fin.status ≠ "awaiting_approval")) = true
              · rw [if_pos hE]
                exact Or.inr (Or.inr (Or.inl rfl))
              · rw [if_neg hE]
                exact hstat.1
            · intro hh
              by_cases hE : (errTruthy fin.error &&
                  decide (fin.status ≠ "awaiting_approval")) = true
              · have het : errTruthy fin.error = true := by
                  have h2 := hE
                  simp only [Bool.and_eq_true] at h2
                  exact h2.1
                match hfe : fin.error with
                | none => rw [hfe] at het; simp [errTruthy] at het
                | some msg => rfl
              · rw [if_neg hE] at hh
                exact hstat.2 hh

/-- The bad clients with a working execution-record insert. -/
def c1goodClients : EngineClients :=
  { c1badClients with insertExecutionCall := .ok () }

/-- Witness for the amended C1 at concrete clients whose fetch and insert
succeed. -/
theorem execute_no_exception_witness :
    ∃ res effs vis,
      execute c1goodClients "e1" "p1" "w1" "u1" [] = .ok (res, effs, vis) ∧
      (res.status = "running" ∨ res.status = "completed" ∨ res.status = "failed" ∨
        res.status = "awaiting_approval") ∧
      (res.status = "failed" → res.error.isSome = true) :=
  execute_no_exception c1goodClients "e1" "p1" "w1" "u1" []
    (fun _ h => Except.noConfusion h) (fun _ h => Except.noConfusion h)

/-! ## Claims C5 and C6: agent_call -/

/-- The outcome of one agent slug inside `handle_agent_call`: `some` with
the step cost and the appended assistant message when the lookup resolves
and the invocation succeeds, `none` when the agent is unknown or the
invocation fails. -/
def agentSuccess (deps : HandlerDeps) (st : PipelineState) (nid : String)
    (slug : String) : Option (ℚ × Message) :=
  match deps.agentLookup slug with
  | .ok (some row) =>
      match deps.llmInvoke row (build_messages row.system_prompt
          (agentUserInput st) (some (agentContext st nid))) with
      | .ok resp =>
          some (calculate_total_cost row.cost_per_run
                  (calculate_llm_cost resp.model
                    ⟨resp.input_tokens, resp.output_tokens⟩),
                Message.mk "assistant"
                  ("[" ++ slug ++ "] " ++ resp.content.take 500))
      | .error _ => none
  | _ => none

/-- When the persistence handle is present and agent lookups do not raise,
the per-slug loop completes with one aggregate cost (the sum of the
successful per-agent step costs added to the accumulator) and one appended
assistant message per successful invocation. -/
theorem agentCallLoop_done_spec (deps : HandlerDeps) (st : PipelineState)
    (nid : String) (hdb : deps.supabaseOk = true)
    (hlk : ∀ s, ∃ r, deps.agentLookup s = .ok r) :
    ∀ slugs acc total msgs,
      ∃ acc2, agentCallLoop deps st nid slugs acc total msgs =
        .ok (.done acc2
          (total + ((slugs.filterMap (agentSuccess deps st nid)).map Prod.fst).sum)
          (msgs ++ (slugs.filterMap (agentSuccess deps st nid)).map Prod.snd)) := by
  intro slugs
  induction slugs with
  | nil =>
    intro acc total msgs
    exact ⟨acc, by simp [agentCallLoop]⟩
  | cons s rest ih =>
    intro acc total msgs
    obtain ⟨r, hr⟩ := hlk s
    match r with
    | none =>
      have hsucc : agentSuccess deps st nid s = none := by
        simp [agentSuccess, hr]
      obtain ⟨acc2, hrec⟩ := ih (upsert acc s
        (.obj [("error", .str ("Agent \x27" ++ s ++ "\x27 not found"))])) total msgs
      refine ⟨acc2, ?_⟩
      simp only [agentCallLoop, hdb, hr, List.filterMap_cons, hsucc]
      simpa using hrec
    | some row =>
      cases hinv : deps.llmInvoke row (build_messages row.system_prompt
          (agentUserInput st) (some (agentContext st nid))) with
      | error e =>
        have hsucc : agentSuccess deps st nid s = none := by
          simp [agentSuccess, hr, hinv]
        obtain ⟨acc2, hrec⟩ := ih (upsert acc s (.obj [("error", .str e)])) total msgs
        refine ⟨acc2, ?_⟩
        simp only [agentCallLoop, hdb, hr, hinv, List.filterMap_cons, hsucc]
        simpa using hrec
      | ok resp =>
        have hsucc : agentSuccess deps st nid s =
            some (calculate_total_cost row.cost_per_run
                    (calculate_llm_cost resp.model
                      ⟨resp.input_tokens, resp.output_tokens⟩),
                  Message.mk "assistant"
                    ("[" ++ s ++ "] " ++ resp.content.take 500)) := by
          simp [agentSuccess, hr, hinv]
        obtain ⟨acc2, hrec⟩ := ih
          (upsert acc s (agentSuccessVal resp
            (calculate_total_cost row.cost_per_run
              (calculate_llm_cost resp.model
                ⟨resp.input_tokens, resp.output_tokens⟩))))
          (total + calculate_total_cost row.cost_per_run
            (calculate_llm_cost resp.model
              ⟨resp.input_tokens, resp.output_tokens⟩))
          (msgs ++ [Message.mk "assistant"
            ("[" ++ s ++ "] " ++ resp.content.take 500)])
        refine ⟨acc2, ?_⟩
        simp only [agentCallLoop, hdb, hr, hinv, List.filterMap_cons, hsucc]
        rw [hrec]
        simp [add_assoc]

/-- Concrete agent dependencies where every agent resolves and every
invocation succeeds. -/
def c6deps : HandlerDeps where
  wsManager := false
  supabaseOk := true
  agentLookup := fun s => .ok (some ⟨s, "sys", 1⟩)
  llmInvoke := fun _ _ => .ok ⟨"hello", 100, 200, "gpt-4o"⟩
  mcpExecuteTool := fun _ _ _ _ => .error "no mcp"
  requiredAgents := []
  requiredMcps := []
  fetchSubscribers := fun _ => .ok []
  parseJsonBlock := fun _ => .noMatch

/-- A concrete input state with empty accumulators. -/
def c6state : PipelineState := initialState "e" "p" "w" "u" [("x", .num 1)]

/-- Counterexample to C6 as stated: a node resolving two agents whose two
invocations both succeed appends two assistant messages (one per successful
agent) but grows `step_costs` by exactly one entry — the handler records a
single aggregate cost per agent_call node, not one entry per successfully
invoked agent. -/
theorem agent_call_cost_entries_counterexample :
    (handle_agent_call "n" (some "(AlphaAgent + BetaAgent)") c6deps c6state).map
      (fun p => (p.1.step_costs.length, p.1.messages.length)) = .ok (1, 2) := rfl

/-- Claim C6 (amended): for every agent_call node that resolves at least one
agent (with the persistence handle present and agent lookups not raising),
the handler appends exactly one entry to `step_costs` — the sum of the
per-agent step costs over the successfully invoked agents — and appends one
assistant message per successfully invoked agent. -/
theorem agent_call_cost_entry (cid : String) (clabel : Option String)
    (deps : HandlerDeps) (st : PipelineState)
    (hdb : deps.supabaseOk = true)
    (hlk : ∀ s, ∃ r, deps.agentLookup s = .ok r)
    (hres : resolvedAgentSlugs deps (clabel.getD cid) ≠ []) :
    ∃ st2 effs, handle_agent_call cid clabel deps st = .ok (st2, effs) ∧
      st2.step_costs = st.step_costs ++
        [(((resolvedAgentSlugs deps (clabel.getD cid)).filterMap
            (agentSuccess deps st cid)).map Prod.fst).sum] ∧
      st2.messages = st.messages ++
        ((resolvedAgentSlugs deps (clabel.getD cid)).filterMap
          (agentSuccess deps st cid)).map Prod.snd ∧
      st2.messages.length = st.messages.length +
        ((resolvedAgentSlugs deps (clabel.getD cid)).filterMap
          (agentSuccess deps st cid)).length := by
  obtain ⟨acc2, hloop⟩ := agentCallLoop_done_spec deps st cid hdb hlk
    (resolvedAgentSlugs deps (clabel.getD cid)) [] 0 st.messages
  have hcall : handle_agent_call cid clabel deps st = .ok
      ({ st with
          current_node_id := cid
          results := upsert st.results cid (.obj acc2)
          messages := st.messages ++
            ((resolvedAgentSlugs deps (clabel.getD cid)).filterMap
              (agentSuccess deps st cid)).map Prod.snd
          step_costs := st.step_costs ++
            [0 + (((resolvedAgentSlugs deps (clabel.getD cid)).filterMap
                (agentSuccess deps st cid)).map Prod.fst).sum] },
        broadcastIf deps.wsManager [.stepStart cid] ++
          broadcastIf deps.wsManager
            [.stepComplete cid ((agentPreview acc2).take 200)]) := by
    simp only [handle_agent_call, hloop]
    rw [if_neg (by simpa [List.isEmpty_iff] using hres)]
  exact ⟨_, _, hcall, by simp, rfl, by simp⟩

/-- Witness for the amended C6 at the concrete two-agent dependencies. -/
theorem agent_call_cost_entry_witness :
    ∃ st2 effs,
      handle_agent_call "n" (some "(AlphaAgent + BetaAgent)") c6deps c6state =
        .ok (st2, effs) ∧
      st2.step_costs = c6state.step_costs ++
        [(((resolvedAgentSlugs c6deps "(AlphaAgent + BetaAgent)").filterMap
            (agentSuccess c6deps c6state "n")).map Prod.fst).sum] ∧
      st2.messages = c6state.messages ++
        ((resolvedAgentSlugs c6deps "(AlphaAgent + BetaAgent)").filterMap
          (agentSuccess c6deps c6state "n")).map Prod.snd ∧
      st2.messages.length = c6state.messages.length +
        ((resolvedAgentSlugs c6deps "(AlphaAgent + BetaAgent)").filterMap
          (agentSuccess c6deps c6state "n")).length :=
  agent_call_cost_entry "n" (some "(AlphaAgent + BetaAgent)") c6deps c6state
    rfl (fun s => ⟨some ⟨s, "sys", 1⟩, rfl⟩) (by decide)

/-- Claim C5: an agent_call resolving two agents where exactly one LLM
invocation fails does not fail the run — status and error are untouched and
`results[node]` carries one success entry and one error entry; in general
(persistence handle present, lookups not raising) the handler leaves status
and error unchanged whenever at least one agent resolves. -/
theorem agent_call_partial_failure :
    (∀ (cid : String) (clabel : Option String) (deps : HandlerDeps)
        (st : PipelineState) (s1 s2 : String) (row1 row2 : AgentRow)
        (resp : LLMResponse) (err : String),
      extract_agent_slugs (clabel.getD cid) = [s1, s2] → s1 ≠ s2 →
      deps.supabaseOk = true →
      deps.agentLookup s1 = .ok (some row1) →
      deps.agentLookup s2 = .ok (some row2) →
      deps.llmInvoke row1 (build_messages row1.system_prompt (agentUserInput st)
        (some (agentContext st cid))) = .ok resp →
      (∀ msgs, deps.llmInvoke row2 msgs = .error err) →
      ∃ st2 effs cost, handle_agent_call cid clabel deps st = .ok (st2, effs) ∧
        st2.status = st.status ∧ st2.error = st.error ∧
        lookup st2.results cid =
          some (.obj [(s1, agentSuccessVal resp cost),
                      (s2, .obj [("error", .str err)])]))
    ∧ (∀ (cid : String) (clabel : Option String) (deps : HandlerDeps)
        (st : PipelineState),
      deps.supabaseOk = true → (∀ s, ∃ r, deps.agentLookup s = .ok r) →
      resolvedAgentSlugs deps (clabel.getD cid) ≠ [] →
      ∃ st2 effs, handle_agent_call cid clabel deps st = .ok (st2, effs) ∧
        st2.status = st.status ∧ st2.error = st.error) := by
  constructor
  · intro cid clabel deps st s1 s2 row1 row2 resp err hx hne hdb hl1 hl2 hi1 hi2
    have hslugs : resolvedAgentSlugs deps (clabel.getD cid) = [s1, s2] := by
      simp [resolvedAgentSlugs, hx]
    have hloop : agentCallLoop deps st cid [s1, s2] [] 0 st.messages =
        .ok (.done [(s1, agentSuccessVal resp
              (calculate_total_cost row1.cost_per_run
                (calculate_llm_cost resp.model
                  ⟨resp.input_tokens, resp.output_tokens⟩))),
             (s2, .obj [("error", .str err)])]
          (0 + calculate_total_cost row1.cost_per_run
            (calculate_llm_cost resp.model
              ⟨resp.input_tokens, resp.output_tokens⟩))
          (st.messages ++ [Message.mk "assistant"
            ("[" ++ s1 ++ "] " ++ resp.content.take 500)])) := by
      simp [agentCallLoop, hdb, hl1, hl2, hi1, hi2, upsert, hne]
    have hcall : handle_agent_call cid clabel deps st = .ok
        ({ st with
            current_node_id := cid
            results := upsert st.results cid
              (.obj [(s1, agentSuccessVal resp
                  (calculate_total_cost row1.cost_per_run
                    (calculate_llm_cost resp.model
                      ⟨resp.input_tokens, resp.output_tokens⟩))),
                (s2, .obj [("error", .str err)])])
            messages := st.messages ++ [Message.mk "assistant"
              ("[" ++ s1 ++ "] " ++ resp.content.take 500)]
            step_costs := st.step_costs ++
              [0 + calculate_total_cost row1.cost_per_run
                (calculate_llm_cost resp.model
                  ⟨resp.input_tokens, resp.output_tokens⟩)] },
          broadcastIf deps.wsManager [.stepStart cid] ++
            broadcastIf deps.wsManager
              [.stepComplete cid ((agentPreview
                [(s1, agentSuccessVal resp
                    (calculate_total_cost row1.cost_per_run
                      (calculate_llm_cost resp.model
                        ⟨resp.input_tokens, resp.output_tokens⟩))),
                  (s2, .obj [("error", .str err)])]).take 200)]) := by
      simp only [handle_agent_call, hslugs, hloop]
      rw [if_neg (by simp : ¬ ([s1, s2] : List String).isEmpty = true)]
    exact ⟨_, _, calculate_total_cost row1.cost_per_run
      (calculate_llm_cost resp.model ⟨resp.input_tokens, resp.output_tokens⟩),
      hcall, rfl, rfl, lookup_upsert_self _ _ _⟩
  · intro cid clabel deps st hdb hlk hres
    obtain ⟨acc2, hloop⟩ := agentCallLoop_done_spec deps st cid hdb hlk
      (resolvedAgentSlugs deps (clabel.getD cid)) [] 0 st.messages
    have hcall : handle_agent_call cid clabel deps st = .ok
        ({ st with
            current_node_id := cid
            results := upsert st.results cid (.obj acc2)
            messages := st.messages ++
              ((resolvedAgentSlugs deps (clabel.getD cid)).filterMap
                (agentSuccess deps st cid)).map Prod.snd
            step_costs := st.step_costs ++
              [0 + (((resolvedAgentSlugs deps (clabel.getD cid)).filterMap
                  (agentSuccess deps st cid)).map Prod.fst).sum] },
          broadcastIf deps.wsManager [.stepStart cid] ++
            broadcastIf deps.wsManager
              [.stepComplete cid ((agentPreview acc2).take 200)]) := by
      simp only [handle_agent_call, hloop]
      rw [if_neg (by simpa [List.isEmpty_iff] using hres)]
    exact ⟨_, _, hcall, rfl, rfl⟩

/-- Concrete dependencies for the C5 witness: the first agent's invocation
succeeds, the second raises. -/
def c5deps : HandlerDeps where
  wsManager := false
  supabaseOk := true
  agentLookup := fun s => .ok (some ⟨s, "sys", 0⟩)
  llmInvoke := fun row _ =>
    if row.slug = "alpha-agent" then .ok ⟨"hi", 10, 20, "gpt-4o"⟩
    else .error "boom"
  mcpExecuteTool := fun _ _ _ _ => .error "no mcp"
  requiredAgents := []
  requiredMcps := []
  fetchSubscribers := fun _ => .ok []
  parseJsonBlock := fun _ => .noMatch

/-- Witness for C5 at a concrete two-agent node where the second invocation
raises. -/
theorem agent_call_partial_failure_witness :
    ∃ st2 effs cost,
      handle_agent_call "n" (some "(AlphaAgent + BetaAgent)") c5deps c6state =
        .ok (st2, effs) ∧
      st2.status = c6state.status ∧ st2.error = c6state.error ∧
      lookup st2.results "n" =
        some (.obj [("alpha-agent", agentSuccessVal ⟨"hi", 10, 20, "gpt-4o"⟩ cost),
                    ("beta-agent", .obj [("error", .str "boom")])]) :=
  agent_call_partial_failure.1 "n" (some "(AlphaAgent + BetaAgent)") c5deps
    c6state "alpha-agent" "beta-agent" ⟨"alpha-agent", "sys", 0⟩
    ⟨"beta-agent", "sys", 0⟩ ⟨"hi", 10, 20, "gpt-4o"⟩ "boom"
    (by decide) (by decide) rfl rfl rfl rfl (fun _ => rfl)

/-- A concrete state for witnesses. -/
def wState : PipelineState := initialState "e0" "p0" "w0" "u0" [("x", .num 1)]

/-- Concrete handler dependencies for witnesses (all collaborators succeed
trivially). -/
def wDeps : HandlerDeps where
  wsManager := true
  supabaseOk := true
  agentLookup := fun s => .ok (some ⟨s, "sys", 0⟩)
  llmInvoke := fun _ _ => .error "provider down"
  mcpExecuteTool := fun _ _ _ _ => .error "tool down"
  requiredAgents := []
  requiredMcps := []
  fetchSubscribers := fun _ => .ok []
  parseJsonBlock := fun _ => .noMatch

/-- Witness for C10: the trigger handler at a concrete state preserves the
five identity fields. -/
theorem handlers_preserve_frame_witness :
    preservesFrame wState
      ({ wState with
          current_node_id := "t",
          results := upsert wState.results "t"
            (.obj [("triggered", .bool true),
                   ("trigger_input", .obj wState.input_data),
                   ("label", .str "t")]) }) :=
  handlers_preserve_frame.2.2.2.2.2.1 "t" none wDeps wState _ rfl

/-! ## Claim C7: total cost -/

/-- Recognises the single final-update persistence effect of `execute`. -/
def Effect.isUpdateFinal : Effect → Bool
  | .updateExecutionFinal _ _ _ _ => true
  | _ => false

/-- Claim C7: for every execution whose fetch, initial insert, compile and
walk complete (over arbitrary collaborators and arbitrary final state), the
`total_cost` that `execute` returns equals the 6-decimal-rounded sum of every
recorded step cost, and exactly one final-update persistence effect carries
that same value. -/
theorem execute_total_cost (c : EngineClients)
    (eid pid wid uid : String) (input : List (String × Val))
    (row : PipelineRow) (g : CompiledGraph) (fin : PipelineState)
    (vis : List String) (heffs : List Effect)
    (hfetch : c.fetchPipeline = .ok (some row))
    (hins : c.insertExecutionCall = .ok ())
    (hbuild : build row = .ok g)
    (hrun : runGraph g (mkDeps c row) RECURSION_LIMIT g.entry
      (initialState eid pid wid uid input) = .ok (fin, vis, heffs)) :
    ∃ res effs,
      execute c eid pid wid uid input = .ok (res, effs, vis) ∧
      res.total_cost = round6 fin.step_costs.sum ∧
      Effect.updateExecutionFinal eid res.status res.total_cost fin.error ∈ effs ∧
      effs.countP Effect.isUpdateFinal = 1 := by
  have hkind : ∀ e : Effect, Effect.isHandlerEffect e = true →
      Effect.isUpdateFinal e = false := by
    intro e h
    cases e <;> simp_all [Effect.isHandlerEffect, Effect.isUpdateFinal]
  have hheffs : heffs.countP Effect.isUpdateFinal = 0 := by
    have h0 := runGraph_countP g (mkDeps c row) Effect.isUpdateFinal
      (fun _ => 0)
      (fun nodeId node st st2 effs2 hn hd =>
        List.countP_eq_zero.mpr (fun e he => by
          simp [hkind e (dispatchHandler_effects_kind node (mkDeps c row) st
            (st2, effs2) hd e he)]))
      RECURSION_LIMIT g.entry _ fin vis heffs hrun
    simpa using h0
  have hexec : execute c eid pid wid uid input = .ok
      ({ execution_id := eid
         status := if errTruthy fin.error
                      && decide (fin.status ≠ "awaiting_approval")
                   then "failed" else fin.status
         results := fin.results
         total_cost := calculate_pipeline_cost fin.step_costs
         error := fin.error },
       [Effect.insertExecutionRow eid "running"] ++ heffs
         ++ [Effect.updateExecutionFinal eid
              (if errTruthy fin.error
                  && decide (fin.status ≠ "awaiting_approval")
               then "failed" else fin.status)
              (calculate_pipeline_cost fin.step_costs) fin.error]
         ++ (if (insertStepRecordsRows eid fin.results row.graph_definition
                fin.step_costs).isEmpty then [] else
              [Effect.insertStepRows (insertStepRecordsRows eid fin.results
                row.graph_definition fin.step_costs)])
         ++ (if decide ((if errTruthy fin.error
                            && decide (fin.status ≠ "awaiting_approval")
                         then "failed" else fin.status) = "completed")
                && decide (0 < calculate_pipeline_cost fin.step_costs)
             then [Effect.creditDeduct wid (calculate_pipeline_cost fin.step_costs)]
             else [])
         ++ [Effect.auditLog eid
              (if errTruthy fin.error
                  && decide (fin.status ≠ "awaiting_approval")
               then "failed" else fin.status)]
         ++ (if c.wsManager
                && decide ((if errTruthy fin.error
                               && decide (fin.status ≠ "awaiting_approval")
                            then "failed" else fin.status) = "completed")
             then [Effect.executionComplete eid] else []),
       vis) := by
    simp only [execute, hfetch, hins, hbuild, hrun]
  refine ⟨_, _, hexec, rfl, ?_, ?_⟩
  · simp
  · simp only [List.countP_append, hheffs]
    repeat' split
    all_goals simp [Effect.isUpdateFinal, List.countP_cons, List.countP_nil]

/-- A concrete trigger-to-output pipeline row for the C7 witness. -/
def c7row : PipelineRow where
  name := some "demo"
  graph_definition := .obj
    { nodes := some [⟨"t", some "trigger", none, []⟩,
                     ⟨"o", some "output", none, []⟩]
      edges := some [⟨"t", "o"⟩]
      entry_point := some "t"
      otherKeys := false }
  required_agents := []
  required_mcps := []

/-- Concrete engine collaborators for the C7 witness. -/
def c7clients : EngineClients where
  wsManager := false
  agentLookup := fun _ => .ok none
  llmInvoke := fun _ _ => .error "no llm"
  mcpExecuteTool := fun _ _ _ _ => .error "no mcp"
  fetchSubscribers := fun _ => .ok []
  parseJsonBlock := fun _ => .noMatch
  fetchPipeline := .ok (some c7row)
  insertExecutionCall := .ok ()
  updateFailedCall := .ok ()
  updateCompletedCall := .ok ()
  insertStepsCall := .ok ()
  creditDeductCall := .ok ()
  insertAuditCall := .ok ()
  sendCompleteCall := .ok ()
  sendErrorCall := .ok ()

/-- The compiled graph of the C7 witness row. -/
def c7g : CompiledGraph where
  nodes := [⟨"t", some "trigger", none, []⟩, ⟨"o", some "output", none, []⟩]
  edges := [⟨"t", "o"⟩]
  entry := "t"

/-- The final state of the C7 witness walk. -/
def c7fin : PipelineState where
  execution_id := "e"
  pipeline_id := "p"
  workspace_id := "w"
  user_id := "u"
  input_data := []
  current_node_id := "o"
  results := [("t", .obj [("triggered", .bool true), ("trigger_input", .obj []),
                          ("label", .str "t")]),
              ("o", .obj [("pipeline_id", .str "p"), ("execution_id", .str "e"),
                          ("node_results", .obj
                            [("t", .obj [("triggered", .bool true),
                                         ("trigger_input", .obj []),
                                         ("label", .str "t")])]),
                          ("total_steps", .num 1), ("label", .str "o")])]
  messages := []
  step_costs := []
  error := none
  status := "completed"

/-- Witness for C7: a concrete trigger-to-output execution reports and
persists exactly the rounded step-cost sum. -/
theorem execute_total_cost_witness :
    ∃ res effs,
      execute c7clients "e" "p" "w" "u" [] = .ok (res, effs, ["t", "o"]) ∧
      res.total_cost = round6 c7fin.step_costs.sum ∧
      Effect.updateExecutionFinal "e" res.status res.total_cost c7fin.error ∈ effs ∧
      effs.countP Effect.isUpdateFinal = 1 :=
  execute_total_cost c7clients "e" "p" "w" "u" [] c7row c7g c7fin
    ["t", "o"] [] rfl rfl rfl rfl

/-! ## Claim C9: positional step-cost attribution -/

theorem handle_validation_stepCosts (cid : String) (clabel : Option String)
    (deps : HandlerDeps) (st : PipelineState) :
    ∀ out, handle_validation cid clabel deps st = .ok out →
      out.1.step_costs = st.step_costs := by
  intro out h
  simp only [handle_validation] at h
  repeat' split at h
  all_goals first
    | exact Except.noConfusion h
    | (injection h with h; subst h; rfl)

theorem handle_mcp_call_stepCosts (cid : String) (clabel : Option String)
    (deps : HandlerDeps) (st : PipelineState) :
    ∀ out, handle_mcp_call cid clabel deps st = .ok out →
      out.1.step_costs = st.step_costs := by
  intro out h
  simp only [handle_mcp_call] at h
  repeat' split at h
  all_goals first
    | exact Except.noConfusion h
    | (injection h with h; subst h; rfl)

theorem handle_newsletter_send_stepCosts (cid : String) (clabel : Option String)
    (deps : HandlerDeps) (st : PipelineState) :
    ∀ out, handle_newsletter_send cid clabel deps st = .ok out →
      out.1.step_costs = st.step_costs := by
  intro out h
  simp only [handle_newsletter_send] at h
  repeat' split at h
  all_goals first
    | exact Except.noConfusion h
    | (injection h with h; subst h; rfl)

theorem handle_human_gate_stepCosts (cid : String) (clabel : Option String)
    (deps : HandlerDeps) (st : PipelineState) :
    ∀ out, handle_human_gate cid clabel deps st = .ok out →
      out.1.step_costs = st.step_costs := by
  intro out h
  simp only [handle_human_gate] at h
  injection h with h; subst h; rfl

theorem handle_trigger_stepCosts (cid : String) (clabel : Option String)
    (deps : HandlerDeps) (st : PipelineState) :
    ∀ out, handle_trigger cid clabel deps st = .ok out →
      out.1.step_costs = st.step_costs := by
  intro out h
  simp only [handle_trigger] at h
  injection h with h; subst h; rfl

theorem handle_action_stepCosts (cid : String) (clabel : Option String)
    (deps : HandlerDeps) (st : PipelineState) :
    ∀ out, handle_action cid clabel deps st = .ok out →
      out.1.step_costs = st.step_costs := by
  intro out h
  simp only [handle_action] at h
  injection h with h; subst h; rfl

theorem handle_output_stepCosts (cid : String) (clabel : Option String)
    (deps : HandlerDeps) (st : PipelineState) :
    ∀ out, handle_output cid clabel deps st = .ok out →
      out.1.step_costs = st.step_costs := by
  intro out h
  simp only [handle_output] at h
  injection h with h; subst h; rfl

/-- Every handler other than the agent_call handler leaves `step_costs`
untouched. -/
theorem dispatchHandler_stepCosts (node : NodeDef) (deps : HandlerDeps)
    (st : PipelineState) (hne : node.type.getD "action" ≠ "agent_call") :
    ∀ out, dispatchHandler node deps st = .ok out →
      out.1.step_costs = st.step_costs := by
  intro out h
  unfold dispatchHandler at h
  split at h
  all_goals first
    | exact handle_validation_stepCosts _ _ deps st out h
    | exact handle_mcp_call_stepCosts _ _ deps st out h
    | exact handle_newsletter_send_stepCosts _ _ deps st out h
    | exact handle_human_gate_stepCosts _ _ deps st out h
    | exact handle_trigger_stepCosts _ _ deps st out h
    | exact handle_action_stepCosts _ _ deps st out h
    | exact handle_output_stepCosts _ _ deps st out h
    | (rename_i harm; exact absurd harm hne)

/-- Claim C9: step-record rows take their cost positionally from
`step_costs` (`0` past its end); since only the agent_call handler ever
appends to `step_costs`, a graph whose agent_call node is preceded by a
non-cost node has the agent cost recorded on the earlier node's row.
First conjunct: the i-th persisted row's credits equal the i-th element of
`step_costs`.  Second: in a trigger-then-agent_call definition whose walk
recorded the single aggregate agent cost `t`, the rows carry `[t, 0]` —
`t` lands on the trigger's row.  Third: no handler other than agent_call
grows `step_costs`. -/
theorem step_cost_misattribution :
    (∀ (eid : String) (results : List (String × Val)) (gdef : RawGraphDef)
        (costs : List ℚ) (i : ℕ)
        (h : i < (insertStepRecordsRows eid results gdef costs).length),
      ((insertStepRecordsRows eid results gdef costs).get ⟨i, h⟩).credits_used =
        costs.getD i 0)
    ∧ (∀ (eid a b : String) (results : List (String × Val)) (t : ℚ)
        (o : GraphDefObj),
      o.nodes = some [⟨a, some "trigger", none, []⟩,
                      ⟨b, some "agent_call", none, []⟩] →
      (insertStepRecordsRows eid results (.obj o) [t]).map StepRow.credits_used =
        [t, 0])
    ∧ (∀ (node : NodeDef) (deps : HandlerDeps) (st : PipelineState),
      node.type.getD "action" ≠ "agent_call" →
      ∀ out, dispatchHandler node deps st = .ok out →
        out.1.step_costs = st.step_costs) := by
  refine ⟨?_, ?_, ?_⟩
  · intro eid results gdef costs i h
    simp only [insertStepRecordsRows] at h ⊢
    simp [List.get_eq_getElem, List.getElem_map, List.getElem_enum]
  · intro eid a b results t o ho
    simp only [insertStepRecordsRows, ho]
    rfl
  · intro node deps st hne out h
    exact dispatchHandler_stepCosts node deps st hne out h

/-- The trigger-then-agent_call graph definition object of the C9 witness. -/
def c9o : GraphDefObj where
  nodes := some [⟨"a", some "trigger", none, []⟩,
                 ⟨"b", some "agent_call", none, []⟩]
  edges := some [⟨"a", "b"⟩]
  entry_point := some "a"
  otherKeys := false

/-- The trigger-handler output state of the C9 witness dispatch. -/
def c9out : PipelineState :=
  { wState with
      current_node_id := "a"
      results := upsert wState.results "a"
        (.obj [("triggered", .bool true),
               ("trigger_input", .obj wState.input_data),
               ("label", .str "a")]) }

/-- Witness for C9: a concrete trigger-then-agent_call definition with the
single recorded cost 3 persists credits `[3, 0]` — the agent cost lands on
the trigger's row — and a concrete trigger dispatch leaves `step_costs`
unchanged. -/
theorem step_cost_misattribution_witness :
    ((insertStepRecordsRows "e" [] (RawGraphDef.obj c9o) [(3 : ℚ)]).get
        ⟨0, by decide⟩).credits_used = ([(3 : ℚ)]).getD 0 0 ∧
    (insertStepRecordsRows "e" [] (RawGraphDef.obj c9o) [(3 : ℚ)]).map
        StepRow.credits_used = [(3 : ℚ), 0] ∧
    c9out.step_costs = wState.step_costs :=
  ⟨step_cost_misattribution.1 "e" [] (RawGraphDef.obj c9o) [(3 : ℚ)] 0 (by decide),
   step_cost_misattribution.2.1 "e" "a" "b" [] (3 : ℚ) c9o rfl,
   step_cost_misattribution.2.2 ⟨"a", some "trigger", none, []⟩ wDeps wState
     (by decide)
     (c9out, [Effect.stepStart "a", Effect.stepComplete "a" "Trigger activated"])
     rfl⟩

end MasterOS
